import Mathlib

/-!
# CXL 256-byte flit format and traffic-generator configuration

A shallow embedding of `cxl_traffic_gen/include/cxl_flit.h`, of the
configuration and statistics blocks of
`cxl_traffic_gen/include/cxl_traffic_gen.h`, of the flit generator
`tests/cxl_flit_generator.cpp` and of the burst test of
`tests/test_cxl_traffic_patterns.cpp`, followed by the properties established
about them.

Conventions of the embedding:

* `uint8_t`, `uint16_t`, `uint32_t`, `uint64_t` are the natural numbers below
  `2^8`, `2^16`, `2^32`, `2^64`; a value of these types is always in range, as
  in C++.
* `size_t` quantities (sizes, byte counts, indices) are plain `Nat`; where the
  source computes with them (`generate_sample_data`, `test_burst_transfer`)
  the arithmetic is reduced modulo `2^64`, a `size_t` of 64 bits.
* A stream is the list of the characters written to it.  `to_hex_string` has
  undefined behaviour for `bytes_per_line = 0` (remainder by zero); the
  embedding returns `none` there.
* A `const void*` source is `Option (List uint8_t)`: `none` is the null
  pointer, `some buf` points at a buffer of exactly `buf.length` readable
  bytes.
* `memcpy` has undefined behaviour when it reads past the end of its source
  or writes past the end of its destination; the embedding returns `none`
  there, so a factory that copies a payload returns `Option CXLFlit`.
* A `double` member is kept as the exact decimal value of its initialiser.
* The engine behind `TrafficGenerator` (`class Impl`: event queue, clock,
  statistics aggregator, MSHR) is only forward-declared in the sources.  Its
  operations are modelled from the specification; each such definition says
  so in its doc comment.
-/

namespace CXL

/-- The C++ type `uint8_t`. -/
abbrev uint8_t := Fin 256

/-- The C++ type `uint16_t`. -/
abbrev uint16_t := Fin 65536

/-- The C++ type `uint32_t`. -/
abbrev uint32_t := Fin 4294967296

/-- The C++ type `uint64_t`. -/
abbrev uint64_t := Fin 18446744073709551616

/-- The C++ type `double`, for members whose value is given by a decimal
literal: the value kept is the decimal value of the literal, exactly.  No
floating-point arithmetic is performed on it. -/
abbrev double := ℚ

/-- The scoped enumeration `enum class CXLMemOpcode : uint8_t`.  Its underlying
type is fixed, so every byte value is a value of the enumeration; the
enumerators are the named constants below. -/
structure CXLMemOpcode where
  byte : uint8_t
  deriving DecidableEq, Repr

namespace CXLMemOpcode

def MEM_RD : CXLMemOpcode := ⟨0x00⟩
def MEM_RD_DATA : CXLMemOpcode := ⟨0x01⟩
def MEM_WR : CXLMemOpcode := ⟨0x10⟩
def MEM_WR_PTL : CXLMemOpcode := ⟨0x11⟩
def MEM_DATA : CXLMemOpcode := ⟨0x20⟩
def MEM_DATA_NXM : CXLMemOpcode := ⟨0x21⟩
def CPL : CXLMemOpcode := ⟨0x30⟩
def CPL_DATA : CXLMemOpcode := ⟨0x31⟩
def SNP_DATA : CXLMemOpcode := ⟨0x40⟩
def SNP_INV : CXLMemOpcode := ⟨0x41⟩
def RESERVED : CXLMemOpcode := ⟨0xFF⟩

/-- The ten enumerators other than `RESERVED`, in declaration order. -/
def defined : List CXLMemOpcode :=
  [MEM_RD, MEM_RD_DATA, MEM_WR, MEM_WR_PTL, MEM_DATA, MEM_DATA_NXM, CPL, CPL_DATA, SNP_DATA,
    SNP_INV]

end CXLMemOpcode

/-- The packed struct `CXLFlitHeader`, fields in declaration order.  The
defaults are the state its constructor leaves: `memset` to zero (opcode byte
`0x00`), then `protocol_id = 0x2`. -/
structure CXLFlitHeader where
  protocol_id : uint8_t := 0x2
  opcode : CXLMemOpcode := ⟨0x00⟩
  tag : uint16_t := 0
  address : uint64_t := 0
  length : uint16_t := 0
  cache_id : uint8_t := 0
  flags : uint8_t := 0
  deriving DecidableEq, Repr

/-- The constant `CXLFlit::FLIT_SIZE`. -/
def FLIT_SIZE : Nat := 256

/-- The constant `CXLFlit::HEADER_SIZE`. -/
def HEADER_SIZE : Nat := 16

/-- The constant `CXLFlit::DATA_SIZE`. -/
def DATA_SIZE : Nat := 240

/-- The packed struct `CXLFlit`: a header and the array `uint8_t data[DATA_SIZE]`.
The defaults are the state the constructor `CXLFlit()` leaves: a
default-constructed header and `data` set to zero. -/
structure CXLFlit where
  header : CXLFlitHeader := {}
  data : Fin DATA_SIZE → uint8_t := fun _ => 0

/-- The call `memcpy(flit.data, src, n)`: bytes `0 .. n-1` of the payload array
are overwritten with bytes `0 .. n-1` of the source, the rest is kept.  The
result is `none` when the call would read past the source buffer or write past
the `DATA_SIZE`-byte array (undefined behaviour in C++). -/
def memcpy (dst : Fin DATA_SIZE → uint8_t) (src : List uint8_t) (n : Nat) :
    Option (Fin DATA_SIZE → uint8_t) :=
  if h : n ≤ src.length ∧ n ≤ DATA_SIZE then
    some (fun i =>
      if hi : i.val < n then src.get ⟨i.val, Nat.lt_of_lt_of_le hi h.1⟩ else dst i)
  else
    none

/-- The factory `CXLFlit::create_mem_read`. -/
def create_mem_read (address : uint64_t) (size : uint16_t) (tag : uint16_t := 0) : CXLFlit :=
  let flit : CXLFlit := {}
  let flit := { flit with header.protocol_id := 0x2 }
  let flit := { flit with header.opcode := CXLMemOpcode.MEM_RD }
  let flit := { flit with header.address := address }
  let flit := { flit with header.length := size }
  let flit := { flit with header.tag := tag }
  flit

/-- The factory `CXLFlit::create_mem_write`. -/
def create_mem_write (address : uint64_t) (write_data : Option (List uint8_t))
    (size : uint16_t) (tag : uint16_t := 0) : Option CXLFlit :=
  let flit : CXLFlit := {}
  let flit := { flit with header.protocol_id := 0x2 }
  let flit := { flit with header.opcode := CXLMemOpcode.MEM_WR }
  let flit := { flit with header.address := address }
  let flit := { flit with header.length := size }
  let flit := { flit with header.tag := tag }
  let copy_size : Nat := if size.val > DATA_SIZE then DATA_SIZE else size.val
  match write_data with
  | some src => (memcpy flit.data src copy_size).map fun d => { flit with data := d }
  | none => some flit

/-- The factory `CXLFlit::create_mem_data_response`. -/
def create_mem_data_response (address : uint64_t) (resp_data : Option (List uint8_t))
    (size : uint16_t) (tag : uint16_t := 0) : Option CXLFlit :=
  let flit : CXLFlit := {}
  let flit := { flit with header.protocol_id := 0x2 }
  let flit := { flit with header.opcode := CXLMemOpcode.MEM_DATA }
  let flit := { flit with header.address := address }
  let flit := { flit with header.length := size }
  let flit := { flit with header.tag := tag }
  let copy_size : Nat := if size.val > DATA_SIZE then DATA_SIZE else size.val
  match resp_data with
  | some src => (memcpy flit.data src copy_size).map fun d => { flit with data := d }
  | none => some flit

/-- The factory `CXLFlit::create_completion`. -/
def create_completion (tag : uint16_t := 0) : CXLFlit :=
  let flit : CXLFlit := {}
  let flit := { flit with header.protocol_id := 0x2 }
  let flit := { flit with header.opcode := CXLMemOpcode.CPL }
  let flit := { flit with header.tag := tag }
  flit

/-- The factory `CXLFlit::create_mem_read_data`. -/
def create_mem_read_data (address : uint64_t) (read_data : Option (List uint8_t))
    (size : uint16_t) (tag : uint16_t := 0) : Option CXLFlit :=
  let flit : CXLFlit := {}
  let flit := { flit with header.protocol_id := 0x2 }
  let flit := { flit with header.opcode := CXLMemOpcode.MEM_RD_DATA }
  let flit := { flit with header.address := address }
  let flit := { flit with header.length := size }
  let flit := { flit with header.tag := tag }
  let copy_size : Nat := if size.val > DATA_SIZE then DATA_SIZE else size.val
  match read_data with
  | some src => (memcpy flit.data src copy_size).map fun d => { flit with data := d }
  | none => some flit

/-- The factory `CXLFlit::create_mem_write_partial`. -/
def create_mem_write_partial (address : uint64_t) (write_data : Option (List uint8_t))
    (size : uint16_t) (tag : uint16_t := 0) : Option CXLFlit :=
  let flit : CXLFlit := {}
  let flit := { flit with header.protocol_id := 0x2 }
  let flit := { flit with header.opcode := CXLMemOpcode.MEM_WR_PTL }
  let flit := { flit with header.address := address }
  let flit := { flit with header.length := size }
  let flit := { flit with header.tag := tag }
  let copy_size : Nat := if size.val > DATA_SIZE then DATA_SIZE else size.val
  match write_data with
  | some src => (memcpy flit.data src copy_size).map fun d => { flit with data := d }
  | none => some flit

/-- The factory `CXLFlit::create_mem_data_nxm`. -/
def create_mem_data_nxm (address : uint64_t) (tag : uint16_t := 0) : CXLFlit :=
  let flit : CXLFlit := {}
  let flit := { flit with header.protocol_id := 0x2 }
  let flit := { flit with header.opcode := CXLMemOpcode.MEM_DATA_NXM }
  let flit := { flit with header.address := address }
  let flit := { flit with header.tag := tag }
  flit

/-- The factory `CXLFlit::create_completion_with_data`. -/
def create_completion_with_data (cpl_data : Option (List uint8_t)) (size : uint16_t)
    (tag : uint16_t := 0) : Option CXLFlit :=
  let flit : CXLFlit := {}
  let flit := { flit with header.protocol_id := 0x2 }
  let flit := { flit with header.opcode := CXLMemOpcode.CPL_DATA }
  let flit := { flit with header.length := size }
  let flit := { flit with header.tag := tag }
  let copy_size : Nat := if size.val > DATA_SIZE then DATA_SIZE else size.val
  match cpl_data with
  | some src => (memcpy flit.data src copy_size).map fun d => { flit with data := d }
  | none => some flit

/-- The factory `CXLFlit::create_snoop_data`. -/
def create_snoop_data (address : uint64_t) (snoop_data : Option (List uint8_t))
    (size : uint16_t) (tag : uint16_t := 0) : Option CXLFlit :=
  let flit : CXLFlit := {}
  let flit := { flit with header.protocol_id := 0x1 }
  let flit := { flit with header.opcode := CXLMemOpcode.SNP_DATA }
  let flit := { flit with header.address := address }
  let flit := { flit with header.length := size }
  let flit := { flit with header.tag := tag }
  let copy_size : Nat := if size.val > DATA_SIZE then DATA_SIZE else size.val
  match snoop_data with
  | some src => (memcpy flit.data src copy_size).map fun d => { flit with data := d }
  | none => some flit

/-- The factory `CXLFlit::create_snoop_invalidate`. -/
def create_snoop_invalidate (address : uint64_t) (tag : uint16_t := 0) : CXLFlit :=
  let flit : CXLFlit := {}
  let flit := { flit with header.protocol_id := 0x1 }
  let flit := { flit with header.opcode := CXLMemOpcode.SNP_INV }
  let flit := { flit with header.address := address }
  let flit := { flit with header.tag := tag }
  flit

/-- The generic factory `CXLFlit::create_custom`.  The copy is guarded by
`payload_data && size > 0`. -/
def create_custom (protocol_id : uint8_t) (opcode : CXLMemOpcode) (address : uint64_t)
    (payload_data : Option (List uint8_t)) (size : uint16_t) (tag : uint16_t := 0)
    (cache_id : uint8_t := 0) (flags : uint8_t := 0) : Option CXLFlit :=
  let flit : CXLFlit := {}
  let flit := { flit with header.protocol_id := protocol_id }
  let flit := { flit with header.opcode := opcode }
  let flit := { flit with header.address := address }
  let flit := { flit with header.length := size }
  let flit := { flit with header.tag := tag }
  let flit := { flit with header.cache_id := cache_id }
  let flit := { flit with header.flags := flags }
  match payload_data with
  | some src =>
    if size.val > 0 then
      let copy_size : Nat := if size.val > DATA_SIZE then DATA_SIZE else size.val
      (memcpy flit.data src copy_size).map fun d => { flit with data := d }
    else
      some flit
  | none => some flit

/-- Object representation of an unsigned integer `v` stored in `w` bytes on a
little-endian target: byte `k` holds bits `8k .. 8k+7` of `v`. -/
def le_bytes (w v : Nat) : List uint8_t :=
  (List.range w).map fun k => ⟨v / 256 ^ k % 256, Nat.mod_lt _ (by decide)⟩

/-- The members of `CXLFlitHeader` in declaration order, each with its `sizeof`
and its value. -/
def CXLFlitHeader.fields (h : CXLFlitHeader) : List (Nat × Nat) :=
  [ (1, h.protocol_id.val),   -- uint8_t protocol_id
    (1, h.opcode.byte.val),   -- CXLMemOpcode opcode (underlying uint8_t)
    (2, h.tag.val),           -- uint16_t tag
    (8, h.address.val),       -- uint64_t address
    (2, h.length.val),        -- uint16_t length
    (1, h.cache_id.val),      -- uint8_t cache_id
    (1, h.flags.val) ]        -- uint8_t flags

/-- Object representation of the packed header: the members one after the
other, without padding, each little-endian. -/
def CXLFlitHeader.raw (h : CXLFlitHeader) : List uint8_t :=
  h.fields.flatMap fun field => le_bytes field.1 field.2

/-- The bytes `reinterpret_cast<const uint8_t*>(this)` points at, which
`to_hex_string` walks: the packed header followed by the array `data`. -/
def CXLFlit.raw (flit : CXLFlit) : List uint8_t :=
  flit.header.raw ++ List.ofFn flit.data

/-- The method `CXLFlit::get_protocol_name`. -/
def CXLFlit.get_protocol_name (flit : CXLFlit) : String :=
  if flit.header.protocol_id = 0x0 then "CXL.io"
  else if flit.header.protocol_id = 0x1 then "CXL.cache"
  else if flit.header.protocol_id = 0x2 then "CXL.mem"
  else "Unknown"

/-- The method `CXLFlit::get_opcode_name`. -/
def CXLFlit.get_opcode_name (flit : CXLFlit) : String :=
  if flit.header.opcode = CXLMemOpcode.MEM_RD then "MEM_RD"
  else if flit.header.opcode = CXLMemOpcode.MEM_RD_DATA then "MEM_RD_DATA"
  else if flit.header.opcode = CXLMemOpcode.MEM_WR then "MEM_WR"
  else if flit.header.opcode = CXLMemOpcode.MEM_WR_PTL then "MEM_WR_PTL"
  else if flit.header.opcode = CXLMemOpcode.MEM_DATA then "MEM_DATA"
  else if flit.header.opcode = CXLMemOpcode.MEM_DATA_NXM then "MEM_DATA_NXM"
  else if flit.header.opcode = CXLMemOpcode.CPL then "CPL"
  else if flit.header.opcode = CXLMemOpcode.CPL_DATA then "CPL_DATA"
  else if flit.header.opcode = CXLMemOpcode.SNP_DATA then "SNP_DATA"
  else if flit.header.opcode = CXLMemOpcode.SNP_INV then "SNP_INV"
  else "RESERVED"

/-- One call of one of the ten named factories, with its arguments. -/
inductive FactoryCall where
  | mem_read (address : uint64_t) (size tag : uint16_t)
  | mem_read_data (address : uint64_t) (read_data : Option (List uint8_t)) (size tag : uint16_t)
  | mem_write (address : uint64_t) (write_data : Option (List uint8_t)) (size tag : uint16_t)
  | mem_write_ptl (address : uint64_t) (write_data : Option (List uint8_t)) (size tag : uint16_t)
  | mem_data_response (address : uint64_t) (resp_data : Option (List uint8_t))
      (size tag : uint16_t)
  | mem_data_nxm (address : uint64_t) (tag : uint16_t)
  | completion (tag : uint16_t)
  | completion_with_data (cpl_data : Option (List uint8_t)) (size tag : uint16_t)
  | snoop_data (address : uint64_t) (data : Option (List uint8_t)) (size tag : uint16_t)
  | snoop_invalidate (address : uint64_t) (tag : uint16_t)

/-- The source pointer is null or points at a buffer holding the
`min(size, DATA_SIZE)` bytes the factories copy. -/
def source_ok (source : Option (List uint8_t)) (size : uint16_t) : Prop :=
  ∀ src, source = some src → min size.val DATA_SIZE ≤ src.length

instance (source : Option (List uint8_t)) (size : uint16_t) : Decidable (source_ok source size) :=
  match source with
  | none => isTrue (fun _ h => nomatch h)
  | some src =>
    if h : min size.val DATA_SIZE ≤ src.length then
      isTrue (fun _ e => by cases e; exact h)
    else
      isFalse (fun k => h (k src rfl))

/-- The flit the call produces. -/
def FactoryCall.run : FactoryCall → Option CXLFlit
  | .mem_read address size tag => some (create_mem_read address size tag)
  | .mem_read_data address read_data size tag => create_mem_read_data address read_data size tag
  | .mem_write address write_data size tag => create_mem_write address write_data size tag
  | .mem_write_ptl address write_data size tag =>
      create_mem_write_partial address write_data size tag
  | .mem_data_response address resp_data size tag =>
      create_mem_data_response address resp_data size tag
  | .mem_data_nxm address tag => some (create_mem_data_nxm address tag)
  | .completion tag => some (create_completion tag)
  | .completion_with_data cpl_data size tag => create_completion_with_data cpl_data size tag
  | .snoop_data address data size tag => create_snoop_data address data size tag
  | .snoop_invalidate address tag => some (create_snoop_invalidate address tag)

/-- The call is to one of the two snoop factories. -/
def FactoryCall.is_snoop : FactoryCall → Bool
  | .snoop_data .. => true
  | .snoop_invalidate .. => true
  | _ => false

/-- The source buffer of the call, when it has one, holds the bytes it copies. -/
def FactoryCall.source_ok : FactoryCall → Prop
  | .mem_read_data _ read_data size _ => CXL.source_ok read_data size
  | .mem_write _ write_data size _ => CXL.source_ok write_data size
  | .mem_write_ptl _ write_data size _ => CXL.source_ok write_data size
  | .mem_data_response _ resp_data size _ => CXL.source_ok resp_data size
  | .completion_with_data cpl_data size _ => CXL.source_ok cpl_data size
  | .snoop_data _ data size _ => CXL.source_ok data size
  | _ => True

namespace TrafficGenerator

/-- The enumeration `Config::CachePolicy`. -/
inductive Config.CachePolicy where
  | RANDOM
  | FIFO
  | LRU
  | LRU2
  | LFU
  | LRFU
  | CFLRU
  deriving DecidableEq, Repr

/-- The enumeration `Config::PrefetcherType`. -/
inductive Config.PrefetcherType where
  | NONE
  | TAGGED
  | BEST_OFFSET
  | LEAP
  | FEEDBACK
  deriving DecidableEq, Repr

/-- The enumeration `Config::FlashTechnology`. -/
inductive Config.FlashTechnology where
  | SLC
  | MLC
  | TLC
  deriving DecidableEq, Repr

/-- The enumeration `Config::GCPolicy`. -/
inductive Config.GCPolicy where
  | GREEDY
  | RGA
  | RANDOM
  | FIFO
  deriving DecidableEq, Repr

/-- The struct `TrafficGenerator::Config`: its members in declaration order,
each with its default member initialiser. -/
structure Config where
  dram_size : uint64_t := 64 * 1024 * 1024
  cache_policy : Config.CachePolicy := Config.CachePolicy.CFLRU
  prefetcher : Config.PrefetcherType := Config.PrefetcherType.BEST_OFFSET
  has_mshr : Bool := true
  set_associativity : uint16_t := 16
  mix_mode : Bool := true
  num_channels : uint32_t := 8
  chips_per_channel : uint32_t := 8
  dies_per_chip : uint32_t := 1
  planes_per_die : uint32_t := 4
  blocks_per_plane : uint32_t := 512
  pages_per_block : uint32_t := 512
  page_size_bytes : uint32_t := 16384
  flash_tech : Config.FlashTechnology := Config.FlashTechnology.SLC
  page_read_latency_ns : uint64_t := 3000
  page_program_latency_ns : uint64_t := 100000
  block_erase_latency_ns : uint64_t := 1000000
  overprovisioning_ratio : double := 0.127
  gc_threshold : double := 0.01
  gc_policy : Config.GCPolicy := Config.GCPolicy.GREEDY
  dram_tRCD_ns : uint64_t := 13
  dram_tCL_ns : uint64_t := 13
  dram_tRP_ns : uint64_t := 13
  enable_logging : Bool := true
  verbose : Bool := false
  deriving DecidableEq, Repr

/-- The configuration `main` of `examples/standalone_example.cpp` builds: a
default `Config` followed by its assignments. -/
def standalone_example_config : Config :=
  let config : Config := {}
  let config := { config with dram_size := 64 * 1024 * 1024 }
  let config := { config with cache_policy := Config.CachePolicy.CFLRU }
  let config := { config with prefetcher := Config.PrefetcherType.BEST_OFFSET }
  let config := { config with has_mshr := true }
  let config := { config with set_associativity := 16 }
  let config := { config with num_channels := 8 }
  let config := { config with chips_per_channel := 8 }
  let config := { config with flash_tech := Config.FlashTechnology.SLC }
  let config := { config with page_read_latency_ns := 3000 }
  let config := { config with page_program_latency_ns := 100000 }
  let config := { config with enable_logging := true }
  let config := { config with verbose := false }
  config

/-- The constant `UINT64_MAX`. -/
def UINT64_MAX : uint64_t := 18446744073709551615

/-- The struct `TrafficGenerator::Statistics`: its members in declaration order,
each with its default member initialiser. -/
structure Statistics where
  total_requests : uint64_t := 0
  cache_hits : uint64_t := 0
  cache_misses : uint64_t := 0
  hit_rate : double := 0.0
  prefetch_issued : uint64_t := 0
  prefetch_hits : uint64_t := 0
  prefetch_pollution : uint64_t := 0
  prefetch_accuracy : double := 0.0
  prefetch_coverage : double := 0.0
  flash_reads : uint64_t := 0
  flash_writes : uint64_t := 0
  flash_erases : uint64_t := 0
  gc_executions : uint64_t := 0
  min_latency_ns : uint64_t := UINT64_MAX
  max_latency_ns : uint64_t := 0
  total_latency_ns : uint64_t := 0
  avg_latency_ns : double := 0.0
  current_time_ns : uint64_t := 0
  deriving DecidableEq, Repr

/-- Modelled from the spec: a `ScheduledEvent`, the future completion of a
pending request (`class TrafficGenerator::Impl` and its event queue are defined
outside the sources).  A request is pending while it awaits its scheduled
completion. -/
structure ScheduledEvent where
  time : uint64_t
  request : uint64_t
  deriving DecidableEq, Repr

/-- Modelled from the spec: the engine behind the facade, `class
TrafficGenerator::Impl`, which the header only forward-declares.  It owns the
simulated clock, the time-ordered queue of scheduled completions, the log of
the completions fired so far, the statistics aggregator, and the cache and
flash state, whose contents are left abstract. -/
structure Impl (Cache Flash : Type) where
  current_time_ns : uint64_t := 0
  events : List ScheduledEvent := []
  fired : List ScheduledEvent := []
  statistics : Statistics := {}
  cache : Cache
  flash : Flash

/-- Modelled from the spec: `has_pending_requests`, true while a request awaits
its scheduled completion. -/
def Impl.has_pending_requests {Cache Flash : Type} (g : Impl Cache Flash) : Bool :=
  !g.events.isEmpty

/-- Modelled from the spec: `get_current_time_ns`, the simulated clock. -/
def Impl.get_current_time_ns {Cache Flash : Type} (g : Impl Cache Flash) : uint64_t :=
  g.current_time_ns

/-- Modelled from the spec: `get_statistics` exposes the aggregator, together
with the current simulated time, without touching any state. -/
def Impl.get_statistics {Cache Flash : Type} (g : Impl Cache Flash) : Statistics :=
  { g.statistics with current_time_ns := g.current_time_ns }

/-- Modelled from the spec: `reset_statistics` resets the aggregator to its
initial state, all counters zero, without touching cache or flash state, the
pending requests or the clock. -/
def Impl.reset_statistics {Cache Flash : Type} (g : Impl Cache Flash) : Impl Cache Flash :=
  { g with statistics := {} }

/-- Modelled from the spec: `next_event_time() -> optional time`, the time of
the event at the head of the time-ordered queue. -/
def Impl.next_event_time {Cache Flash : Type} (g : Impl Cache Flash) : Option uint64_t :=
  g.events.head?.map fun e => e.time

/-- Modelled from the spec: `schedule(time, action)`.  Scheduling an event at a
time earlier than the current simulated time is an error, here `none`;
otherwise the event enters the queue behind every event that is not later than
it (events of the same time fire in submission order). -/
def Impl.schedule {Cache Flash : Type} (g : Impl Cache Flash) (time request : uint64_t) :
    Option (Impl Cache Flash) :=
  if time < g.current_time_ns then
    none
  else
    some { g with
      events := g.events.takeWhile (fun e => e.time ≤ time) ++
        ⟨time, request⟩ :: g.events.dropWhile (fun e => e.time ≤ time) }

/-- Modelled from the spec: `advance_to(time)` fires all due events in time
order, from the head of the queue, and moves the clock to `time`; simulated
time only moves forward, never backward, so a target behind the clock leaves the
clock where it is. -/
def Impl.advance_to {Cache Flash : Type} (g : Impl Cache Flash) (time : uint64_t) :
    Impl Cache Flash :=
  { g with
    current_time_ns := max g.current_time_ns time
    events := g.events.dropWhile (fun e => e.time ≤ time)
    fired := g.fired ++ g.events.takeWhile (fun e => e.time ≤ time) }

/-- Modelled from the spec: `tick(time_ns)` advances the engine to exactly that
time. -/
def Impl.tick {Cache Flash : Type} (g : Impl Cache Flash) (time_ns : uint64_t) :
    Impl Cache Flash :=
  g.advance_to time_ns

/-- Modelled from the spec: the loop of `run_until`, bounded by `fuel`
iterations. -/
def Impl.run_until_loop {Cache Flash : Type} :
    Nat → Impl Cache Flash → uint64_t → Impl Cache Flash
  | 0, g, target_time_ns => g.advance_to target_time_ns
  | fuel + 1, g, target_time_ns =>
    match g.next_event_time with
    | some t =>
      if t ≤ target_time_ns then Impl.run_until_loop fuel (g.advance_to t) target_time_ns
      else g.advance_to target_time_ns
    | none => g.advance_to target_time_ns

/-- Modelled from the spec: `run_until(target_time)` repeatedly advances to the
next event time until reaching the target.  Every iteration fires at least one
event, so one iteration per queued event is enough. -/
def Impl.run_until {Cache Flash : Type} (g : Impl Cache Flash) (target_time_ns : uint64_t) :
    Impl Cache Flash :=
  Impl.run_until_loop g.events.length g target_time_ns

/-- Modelled from the spec: the loop of `run_until_complete`, bounded by `fuel`
iterations. -/
def Impl.run_until_complete_loop {Cache Flash : Type} :
    Nat → Impl Cache Flash → uint64_t → Impl Cache Flash × Bool
  | 0, g, _ => (g, !g.has_pending_requests)
  | fuel + 1, g, max_time_ns =>
    match g.next_event_time with
    | none => (g, true)
    | some t =>
      if max_time_ns ≠ 0 ∧ max_time_ns < t then (g.advance_to max_time_ns, false)
      else Impl.run_until_complete_loop fuel (g.advance_to t) max_time_ns

/-- Modelled from the spec: `run_until_complete(max_time_ns)` advances until no
requests are pending, returning false if `max_time_ns` (when nonzero) is
reached first.  Every iteration fires at least one event, so one iteration per
queued event is enough. -/
def Impl.run_until_complete {Cache Flash : Type} (g : Impl Cache Flash)
    (max_time_ns : uint64_t) : Impl Cache Flash × Bool :=
  Impl.run_until_complete_loop g.events.length g max_time_ns

/-- One call on the engine: scheduling a completion, or one of the facade's
time-advancing and statistics calls. -/
inductive Call where
  | schedule (time request : uint64_t)
  | tick (time_ns : uint64_t)
  | run_until (target_time_ns : uint64_t)
  | run_until_complete (max_time_ns : uint64_t)
  | reset_statistics
  deriving DecidableEq, Repr

/-- The engine after the call; a rejected `schedule` leaves it as it was. -/
def Call.apply {Cache Flash : Type} (g : Impl Cache Flash) : Call → Impl Cache Flash
  | .schedule time request => (g.schedule time request).getD g
  | .tick time_ns => g.tick time_ns
  | .run_until target_time_ns => g.run_until target_time_ns
  | .run_until_complete max_time_ns => (g.run_until_complete max_time_ns).1
  | .reset_statistics => g.reset_statistics

/-- The engine after a sequence of calls. -/
def run_calls {Cache Flash : Type} (g : Impl Cache Flash) (calls : List Call) :
    Impl Cache Flash :=
  calls.foldl Call.apply g

/-- Modelled from the spec: an `MSHREntry`, the missing address and the list of
waiting requests merged onto it, in arrival order (the MSHR belongs to the
engine, which is defined outside the sources). -/
structure MSHREntry where
  address : uint64_t
  waiters : List uint64_t
  deriving DecidableEq, Repr

/-- Modelled from the spec: the MSHR, its entries in allocation order. -/
structure MSHR where
  entries : List MSHREntry := []
  deriving DecidableEq, Repr

/-- Modelled from the spec: what `lookup_or_allocate` answers, an existing
entry to merge onto or a new entry. -/
inductive MSHR.Lookup where
  | existing_entry
  | new_entry
  deriving DecidableEq, Repr

/-- Modelled from the spec: `lookup_or_allocate(address)` for the request
`request`.  When the address is in flight the request is merged onto its entry,
behind the earlier waiters; otherwise a new entry is allocated for it. -/
def MSHR.lookup_or_allocate (m : MSHR) (address request : uint64_t) : MSHR × MSHR.Lookup :=
  if m.entries.any (fun e => e.address = address) then
    (⟨m.entries.map fun e =>
        if e.address = address then { e with waiters := e.waiters ++ [request] } else e⟩,
      MSHR.Lookup.existing_entry)
  else
    (⟨m.entries ++ [⟨address, [request]⟩]⟩, MSHR.Lookup.new_entry)

/-- Modelled from the spec: `complete(address)` releases all merged waiters.
The entry leaves the MSHR and every waiter is released with the completion time
of the fill. -/
def MSHR.complete (m : MSHR) (address completion_time : uint64_t) :
    MSHR × List (uint64_t × uint64_t) :=
  (⟨m.entries.filter fun e => e.address ≠ address⟩,
    (m.entries.filter fun e => e.address = address).flatMap fun e =>
      e.waiters.map fun request => (request, completion_time))

/-- Modelled from the spec: a demand miss, answering the MSHR afterwards and
whether a flash read is issued.  With MSHR support the miss goes through
`lookup_or_allocate` and only a new entry issues a flash read; without it
(`has_mshr = false`) there is no merging, every miss issues its own flash read
and the MSHR is not used. -/
def on_miss (has_mshr : Bool) (m : MSHR) (address request : uint64_t) : MSHR × Bool :=
  if has_mshr then
    match m.lookup_or_allocate address request with
    | (m', MSHR.Lookup.new_entry) => (m', true)
    | (m', MSHR.Lookup.existing_entry) => (m', false)
  else
    (m, true)

/-- One event on the miss path: a demand miss of a request, or the completion of
the flash fill of an address. -/
inductive MSHR.Op where
  | miss (address request : uint64_t)
  | fill (address completion_time : uint64_t)
  deriving DecidableEq, Repr

/-- The MSHR and the number of flash reads issued so far, after one more event. -/
def MSHR.step (has_mshr : Bool) : MSHR × Nat → MSHR.Op → MSHR × Nat
  | (m, flash_reads), .miss address request =>
    ((on_miss has_mshr m address request).1,
      if (on_miss has_mshr m address request).2 then flash_reads + 1 else flash_reads)
  | (m, flash_reads), .fill address completion_time =>
    ((m.complete address completion_time).1, flash_reads)

/-- The MSHR and the number of flash reads issued after a sequence of events,
starting from an empty MSHR. -/
def MSHR.run (has_mshr : Bool) (ops : List MSHR.Op) : MSHR × Nat :=
  ops.foldl (MSHR.step has_mshr) ({}, 0)

end TrafficGenerator

/-- The helper `fill_test_data` of `tests/test_cxl_traffic_patterns.cpp`:
`buffer[i] = (uint8_t)((seed + i) & 0xFF)` for `i < size`, the sum taken in
`uint64_t`. -/
def fill_test_data (size : Nat) (seed : uint64_t) : List uint8_t :=
  (List.range size).map fun i =>
    ⟨(seed.val + i) % 18446744073709551616 % 256, Nat.mod_lt _ (by decide)⟩

/-- The result `r` of a factory is a flit, its header length is `length`, and
its payload bytes `0 .. n-1` are bytes `0 .. n-1` of the source, when the
source is not null. -/
def carries (r : Option CXLFlit) (length : uint16_t) (source : Option (List uint8_t))
    (n : Nat) : Prop :=
  ∃ flit, r = some flit ∧ flit.header.length = length ∧
    ∀ src, source = some src → ∀ i : Fin DATA_SIZE, i.val < n → src[i.val]? = some (flit.data i)

/-- The result `r` of a factory is a flit, its header length is `size`, and its
payload array is the first `DATA_SIZE` bytes of the source `src`. -/
def truncates (r : Option CXLFlit) (size : uint16_t) (src : List uint8_t) : Prop :=
  ∃ flit, r = some flit ∧ flit.header.length = size ∧ List.ofFn flit.data = src.take DATA_SIZE

/-- The number of payload bytes a factory copies: none from a null source,
`min(size, DATA_SIZE)` otherwise. -/
def copied (source : Option (List uint8_t)) (size : uint16_t) : Nat :=
  match source with
  | none => 0
  | some _ => min size.val DATA_SIZE

/-- The result `r` of a factory is a flit whose payload bytes at the indices
from `n` on are zero. -/
def zero_from (r : Option CXLFlit) (n : Nat) : Prop :=
  ∃ flit, r = some flit ∧ ∀ i : Fin DATA_SIZE, n ≤ i.val → flit.data i = 0

/-- The digits `std::hex` prints for the number `n`: lowercase, most
significant digit first, no prefix. -/
def hex (n : Nat) : List Char :=
  Nat.toDigits 16 n

/-- One output under `std::setw(width)` and `std::setfill(fill)`: padded on the
left up to `width` characters, never cut. -/
def setw_setfill (width : Nat) (fill : Char) (out : List Char) : List Char :=
  List.replicate (width - out.length) fill ++ out

/-- The loop of `to_hex_string` from index `i` on: the characters it appends to
`oss` for the bytes `raw[i], raw[i+1], ...` still to print. -/
def to_hex_string_loop (bytes_per_line : Nat) : Nat → List uint8_t → List Char
  | _, [] => []
  | i, b :: raw =>
    (if i % bytes_per_line = 0 then
        "\n  ".data ++ setw_setfill 4 '0' (hex i) ++ ": ".data
      else []) ++
      (setw_setfill 2 '0' (hex b.val) ++ " ".data) ++
      to_hex_string_loop bytes_per_line (i + 1) raw

/-- The method `CXLFlit::to_hex_string`: the loop over the `FLIT_SIZE` bytes of
the image.  With `bytes_per_line = 0` the remainder `i % bytes_per_line` divides
by zero, undefined behaviour in C++; the result is `none` there. -/
def CXLFlit.to_hex_string (flit : CXLFlit) (bytes_per_line : Nat := 16) : Option String :=
  if bytes_per_line = 0 then
    none
  else
    some (String.mk (to_hex_string_loop bytes_per_line 0 flit.raw))

/-- The lowercase hexadecimal digit of the value `d < 16`. -/
def hex_digit (d : Nat) : Char :=
  "0123456789abcdef".data.getD d '0'

/-- A byte token: two lowercase hex digits, high one first, and a space. -/
def hex_token (b : uint8_t) : List Char :=
  [hex_digit (b.val / 16), hex_digit (b.val % 16), ' ']

/-- The number `n` in four hex digits, padded with zeros. -/
def hex4 (n : Nat) : List Char :=
  [hex_digit (n / 4096 % 16), hex_digit (n / 256 % 16), hex_digit (n / 16 % 16),
    hex_digit (n % 16)]

/-- The value of a lowercase hexadecimal digit. -/
def hex_value (c : Char) : Nat :=
  if c.toNat < 58 then c.toNat - 48 else c.toNat - 87

/-- The byte a token stands for. -/
def token_byte (token : List Char) : uint8_t :=
  ⟨(16 * hex_value (token.getD 0 '0') + hex_value (token.getD 1 '0')) % 256,
    Nat.mod_lt _ (by decide)⟩

/-- The byte tokens of a dump, read from left to right in at most `fuel` steps:
a newline starts a line label of eight more characters, which is skipped; any
other character starts a token of three characters. -/
def read_tokens : Nat → List Char → List (List Char)
  | 0, _ => []
  | _ + 1, [] => []
  | fuel + 1, c :: rest =>
    if c = '\n' then read_tokens fuel (rest.drop 8)
    else (c :: rest.take 2) :: read_tokens fuel (rest.drop 2)

/-- The byte tokens of a dump. -/
def byte_tokens (dump : String) : List (List Char) :=
  read_tokens dump.length dump.data

/-- The bytes a dump stands for. -/
def parse_hex_dump (dump : String) : List uint8_t :=
  (byte_tokens dump).map token_byte

namespace cxl_flit_generator

/-- The helper `generate_sample_data` of `tests/cxl_flit_generator.cpp`:
`buffer[i] = (uint8_t)((seed + i * 13) & 0xFF)` for `i < size`.  The product is
taken in the 64-bit `size_t`, the sum in `uint64_t`. -/
def generate_sample_data (size : Nat) (seed : uint64_t := 0xABCDEF) : List uint8_t :=
  (List.range size).map fun i =>
    ⟨(seed.val + i * 13 % 18446744073709551616) % 18446744073709551616 % 256,
      Nat.mod_lt _ (by decide)⟩

/-- The struct `FlitTypeInfo`. -/
structure FlitTypeInfo where
  name : String
  description : String
  flit : CXLFlit

/-- The function `main` of `tests/cxl_flit_generator.cpp`: the flits it collects
in `flit_types`, which it then prints one by one, and its exit status.  `argv`
is the argument vector, program name first.  The result is `none` if a factory
call has undefined behaviour. -/
def main (argv : List String) : Option (List FlitTypeInfo × Nat) := do
  let filter_type : String := if argv.length ≥ 2 then argv.getD 1 "" else ""
  let sample_data := generate_sample_data DATA_SIZE 0x12345678
  let flit_types : List FlitTypeInfo := []
  let flit_types ←
    if filter_type = "" ∨ filter_type = "mem_rd" ∨ filter_type = "all" then do
      let flit := create_mem_read 0x1000000 4096 0x100
      pure (flit_types ++ [⟨"MEM_RD (Memory Read)",
        "Request to read data from memory at specified address", flit⟩])
    else pure flit_types
  let flit_types ←
    if filter_type = "" ∨ filter_type = "mem_rd_data" ∨ filter_type = "all" then do
      let flit ← create_mem_read_data 0x2000000 (some sample_data) 240 0x101
      pure (flit_types ++ [⟨"MEM_RD_DATA (Memory Read with Data)",
        "Memory read request that includes data in the same flit", flit⟩])
    else pure flit_types
  let flit_types ←
    if filter_type = "" ∨ filter_type = "mem_wr" ∨ filter_type = "all" then do
      let flit ← create_mem_write 0x3000000 (some sample_data) 128 0x102
      pure (flit_types ++ [⟨"MEM_WR (Memory Write)",
        "Request to write data to memory at specified address", flit⟩])
    else pure flit_types
  let flit_types ←
    if filter_type = "" ∨ filter_type = "mem_wr_ptl" ∨ filter_type = "all" then do
      let flit ← create_mem_write_partial 0x4000000 (some sample_data) 32 0x103
      pure (flit_types ++ [⟨"MEM_WR_PTL (Memory Write Partial)",
        "Partial memory write (less than cache line size)", flit⟩])
    else pure flit_types
  let flit_types ←
    if filter_type = "" ∨ filter_type = "mem_data" ∨ filter_type = "all" then do
      let flit ← create_mem_data_response 0x5000000 (some sample_data) 240 0x104
      pure (flit_types ++ [⟨"MEM_DATA (Memory Data Response)",
        "Response containing requested memory data", flit⟩])
    else pure flit_types
  let flit_types ←
    if filter_type = "" ∨ filter_type = "mem_data_nxm" ∨ filter_type = "all" then do
      let flit := create_mem_data_nxm 0x6000000 0x105
      pure (flit_types ++ [⟨"MEM_DATA_NXM (Non-Existent Memory)",
        "Response indicating requested memory does not exist", flit⟩])
    else pure flit_types
  let flit_types ←
    if filter_type = "" ∨ filter_type = "cpl" ∨ filter_type = "all" then do
      let flit := create_completion 0x106
      pure (flit_types ++ [⟨"CPL (Completion)",
        "Completion acknowledgment without data", flit⟩])
    else pure flit_types
  let flit_types ←
    if filter_type = "" ∨ filter_type = "cpl_data" ∨ filter_type = "all" then do
      let flit ← create_completion_with_data (some sample_data) 64 0x107
      pure (flit_types ++ [⟨"CPL_DATA (Completion with Data)",
        "Completion acknowledgment with associated data", flit⟩])
    else pure flit_types
  let flit_types ←
    if filter_type = "" ∨ filter_type = "snp_data" ∨ filter_type = "all" then do
      let flit ← create_snoop_data 0x7000000 (some sample_data) 64 0x108
      pure (flit_types ++ [⟨"SNP_DATA (Snoop Data)",
        "Cache coherency snoop with data response", flit⟩])
    else pure flit_types
  let flit_types ←
    if filter_type = "" ∨ filter_type = "snp_inv" ∨ filter_type = "all" then do
      let flit := create_snoop_invalidate 0x8000000 0x109
      pure (flit_types ++ [⟨"SNP_INV (Snoop Invalidate)",
        "Cache coherency snoop to invalidate cache line", flit⟩])
    else pure flit_types
  if flit_types.isEmpty then
    pure (flit_types, 1)
  else
    pure (flit_types, 0)

/-- The names the usage text of the generator lists, without `all`, in the order
of its blocks. -/
def type_names : List String :=
  ["mem_rd", "mem_rd_data", "mem_wr", "mem_wr_ptl", "mem_data", "mem_data_nxm", "cpl",
    "cpl_data", "snp_data", "snp_inv"]

/-- What is compared of a run of the generator: the opcodes of the flits it
collected, in order, and its exit status. -/
def outcome (r : Option (List FlitTypeInfo × Nat)) : Option (List CXLMemOpcode × Nat) :=
  r.map fun p => (p.1.map fun info => info.flit.header.opcode, p.2)

end cxl_flit_generator

namespace test_burst_transfer

/-- The constant `NUM_FLITS` of `test_burst_transfer` as a function of its
`TOTAL_SIZE`: `(TOTAL_SIZE + FLIT_DATA_SIZE - 1) / FLIT_DATA_SIZE`, computed from
left to right in the 64-bit `size_t`, where a sum and a difference wrap
around. -/
def NUM_FLITS (TOTAL_SIZE : Nat) : Nat :=
  ((TOTAL_SIZE + DATA_SIZE) % 18446744073709551616 + (18446744073709551616 - 1))
    % 18446744073709551616 / DATA_SIZE

/-- The address of flit `idx`: `start_address + (idx * FLIT_DATA_SIZE)`, the
product in `size_t`, the sum in `uint64_t`. -/
def address (start_address : uint64_t) (idx : Nat) : uint64_t :=
  ⟨(start_address.val + idx * DATA_SIZE % 18446744073709551616) % 18446744073709551616,
    Nat.mod_lt _ (by decide)⟩

/-- The bytes left from flit `idx` on: `TOTAL_SIZE - (idx * FLIT_DATA_SIZE)` in
`size_t`. -/
def remaining (TOTAL_SIZE idx : Nat) : Nat :=
  (TOTAL_SIZE + (18446744073709551616 - idx * DATA_SIZE % 18446744073709551616))
    % 18446744073709551616

/-- The size of flit `idx`:
`(remaining > FLIT_DATA_SIZE) ? FLIT_DATA_SIZE : remaining`, stored in a
`uint16_t`. -/
def size (TOTAL_SIZE idx : Nat) : uint16_t :=
  ⟨(if remaining TOTAL_SIZE idx > DATA_SIZE then DATA_SIZE else remaining TOTAL_SIZE idx)
      % 65536, Nat.mod_lt _ (by decide)⟩

/-- The read flit of index `idx`, with tag `700 + idx` stored in a `uint16_t`. -/
def flit (start_address : uint64_t) (TOTAL_SIZE idx : Nat) : CXLFlit :=
  create_mem_read (address start_address idx) (size TOTAL_SIZE idx)
    ⟨(700 + idx) % 18446744073709551616 % 65536, Nat.mod_lt _ (by decide)⟩

end test_burst_transfer

end CXL

namespace CXL

theorem memcpy_eq_some (dst : Fin DATA_SIZE → uint8_t) (src : List uint8_t) (n : Nat)
    (hsrc : n ≤ src.length) (hdst : n ≤ DATA_SIZE) :
    ∃ d, memcpy dst src n = some d ∧
      (∀ i : Fin DATA_SIZE, i.val < n → src[i.val]? = some (d i)) ∧
      (∀ i : Fin DATA_SIZE, n ≤ i.val → d i = dst i) := by
  refine ⟨_, dif_pos ⟨hsrc, hdst⟩, ?_, ?_⟩
  · intro i hi
    simp only [dif_pos hi]
    exact List.getElem?_eq_getElem (Nat.lt_of_lt_of_le hi hsrc)
  · intro i hi
    simp only [dif_neg (Nat.not_lt.mpr hi)]

/-- The clamp-and-copy tail shared by the payload-carrying factories: with a
null source the flit is returned as it is, otherwise the first
`min(size, DATA_SIZE)` source bytes overwrite the start of the payload. -/
theorem payload_copy (flit : CXLFlit) (source : Option (List uint8_t)) (size : uint16_t)
    (h : source_ok source size) :
    ∃ d, (match source with
        | some src =>
          (memcpy flit.data src (if size.val > DATA_SIZE then DATA_SIZE else size.val)).map
            fun d => { flit with data := d }
        | none => some flit) = some { flit with data := d } ∧
      (∀ src, source = some src → ∀ i : Fin DATA_SIZE,
        i.val < min size.val DATA_SIZE → src[i.val]? = some (d i)) ∧
      (∀ i : Fin DATA_SIZE, source = none ∨ min size.val DATA_SIZE ≤ i.val →
        d i = flit.data i) := by
  have hc : (if size.val > DATA_SIZE then DATA_SIZE else size.val) = min size.val DATA_SIZE := by
    split <;> omega
  cases source with
  | none =>
    exact ⟨flit.data, rfl, fun _ e => Option.noConfusion e, fun _ _ => rfl⟩
  | some src =>
    obtain ⟨d, hd, hcopy, hkeep⟩ :=
      memcpy_eq_some flit.data src (min size.val DATA_SIZE) (h src rfl) (Nat.min_le_right _ _)
    refine ⟨d, ?_, ?_, ?_⟩
    · simp only [hc, hd, Option.map_some']
    · intro s e i hi
      cases e
      exact hcopy i hi
    · intro i hi
      rcases hi with e | hi
      · exact Option.noConfusion e
      · exact hkeep i hi

/-- The clamp-and-copy tail applied to a fresh flit with the given header: the
result is a flit with that header whose leading payload bytes are the source
bytes. -/
theorem carries_payload_copy (header : CXLFlitHeader) (source : Option (List uint8_t))
    (size : uint16_t) (n : Nat) :
    source_ok source size → n ≤ min size.val DATA_SIZE →
    carries (match source with
      | some src =>
        (memcpy (fun _ => 0) src (if size.val > DATA_SIZE then DATA_SIZE else size.val)).map
          fun d => ({ header := header, data := d } : CXLFlit)
      | none => some { header := header, data := fun _ => 0 }) header.length source n := by
  intro hok hn
  obtain ⟨d, hd, hcopy, -⟩ := payload_copy ⟨header, fun _ => 0⟩ source size hok
  exact ⟨_, hd, rfl, fun src e i hi => hcopy src e i (Nat.lt_of_lt_of_le hi hn)⟩

/-- C1: a memory-write flit built from an address, a tag, a length `L ≤ 240`
and a payload of at least `L` bytes reads back opcode `MEM_WR`, the same
address, tag and length, and payload bytes `0 .. L-1` equal to the source. -/
theorem create_mem_write_round_trip (address : uint64_t) (tag L : uint16_t)
    (P : List uint8_t) (hL : L.val ≤ 240) (hP : L.val ≤ P.length) :
    ∃ flit, create_mem_write address (some P) L tag = some flit ∧
      flit.header.opcode = CXLMemOpcode.MEM_WR ∧
      flit.header.address = address ∧
      flit.header.tag = tag ∧
      flit.header.length = L ∧
      ∀ i : Fin DATA_SIZE, i.val < L.val → P[i.val]? = some (flit.data i) := by
  have hc : (if L.val > DATA_SIZE then DATA_SIZE else L.val) = L.val :=
    if_neg (Nat.not_lt.mpr hL)
  obtain ⟨d, hd, hcopy, -⟩ :=
    memcpy_eq_some (fun _ => 0) P L.val hP hL
  refine ⟨⟨⟨0x2, CXLMemOpcode.MEM_WR, tag, address, L, 0, 0⟩, d⟩, ?_, rfl, rfl, rfl, rfl, hcopy⟩
  simp only [create_mem_write, hc, hd]
  rfl

/-- Witness of C1 at the write-back of `test_read_modify_write`: the eight
bytes of the counter `0x123456789ABCDEF1` written to `0x3000000` with tag 301. -/
theorem create_mem_write_round_trip_witness :
    ∃ flit, create_mem_write 0x3000000
        (some [0xF1, 0xDE, 0xBC, 0x9A, 0x78, 0x56, 0x34, 0x12]) 8 301 = some flit ∧
      flit.header.opcode = CXLMemOpcode.MEM_WR ∧
      flit.header.address = 0x3000000 ∧
      flit.header.tag = 301 ∧
      flit.header.length = 8 ∧
      ∀ i : Fin DATA_SIZE, i.val < (8 : uint16_t).val →
        [(0xF1 : uint8_t), 0xDE, 0xBC, 0x9A, 0x78, 0x56, 0x34, 0x12][i.val]? =
          some (flit.data i) :=
  create_mem_write_round_trip 0x3000000 301 8
    [0xF1, 0xDE, 0xBC, 0x9A, 0x78, 0x56, 0x34, 0x12] (by decide) (by decide)

/-- C2: the generic factory loses no header field and no payload byte: for a
size of at most 240 and a payload of at least that many bytes, the seven
header fields of the flit equal the arguments and its first `size` payload
bytes equal the payload. -/
theorem create_custom_round_trip (protocol_id : uint8_t) (opcode : CXLMemOpcode)
    (address : uint64_t) (tag : uint16_t) (cache_id flags : uint8_t) (size : uint16_t)
    (payload : List uint8_t) (hsize : size.val ≤ 240) (hpayload : size.val ≤ payload.length) :
    ∃ flit, create_custom protocol_id opcode address (some payload) size tag cache_id flags
        = some flit ∧
      flit.header.protocol_id = protocol_id ∧
      flit.header.opcode = opcode ∧
      flit.header.tag = tag ∧
      flit.header.address = address ∧
      flit.header.length = size ∧
      flit.header.cache_id = cache_id ∧
      flit.header.flags = flags ∧
      ∀ i : Fin DATA_SIZE, i.val < size.val → payload[i.val]? = some (flit.data i) := by
  by_cases hpos : size.val > 0
  · have hc : (if size.val > DATA_SIZE then DATA_SIZE else size.val) = size.val :=
      if_neg (Nat.not_lt.mpr hsize)
    obtain ⟨d, hd, hcopy, -⟩ := memcpy_eq_some (fun _ => 0) payload size.val hpayload hsize
    refine ⟨⟨⟨protocol_id, opcode, tag, address, size, cache_id, flags⟩, d⟩, ?_,
      rfl, rfl, rfl, rfl, rfl, rfl, rfl, hcopy⟩
    simp only [create_custom, if_pos hpos, hc, hd]
    rfl
  · refine ⟨⟨⟨protocol_id, opcode, tag, address, size, cache_id, flags⟩, fun _ => 0⟩, ?_,
      rfl, rfl, rfl, rfl, rfl, rfl, rfl, ?_⟩
    · simp only [create_custom, if_neg hpos]
    · intro i hi
      omega

/-- Witness of C2: a CXL.cache flit with a three-byte payload. -/
theorem create_custom_round_trip_witness :
    ∃ flit, create_custom 0x1 CXLMemOpcode.SNP_DATA 0x7000000 (some [0xAA, 0xBB, 0xCC]) 3
        0x108 5 0x01 = some flit ∧
      flit.header.protocol_id = 0x1 ∧
      flit.header.opcode = CXLMemOpcode.SNP_DATA ∧
      flit.header.tag = 0x108 ∧
      flit.header.address = 0x7000000 ∧
      flit.header.length = 3 ∧
      flit.header.cache_id = 5 ∧
      flit.header.flags = 0x01 ∧
      ∀ i : Fin DATA_SIZE, i.val < (3 : uint16_t).val →
        [(0xAA : uint8_t), 0xBB, 0xCC][i.val]? = some (flit.data i) :=
  create_custom_round_trip 0x1 CXLMemOpcode.SNP_DATA 0x7000000 0x108 5 0x01 3
    [0xAA, 0xBB, 0xCC] (by decide) (by decide)

set_option maxRecDepth 100000 in
/-- C3, the claim as stated fails: the oversized write of `test_mixed_workload`
(4096 bytes asked for, a 240-byte buffer) is not rejected, a flit comes back
and its header length is 4096. -/
theorem create_mem_write_oversize_returns_flit :
    240 < (4096 : uint16_t).val ∧
    (create_mem_write 0x5000000 (some (fill_test_data 240 0xDEADBEEF)) 4096 600).isSome = true ∧
    ((create_mem_write 0x5000000 (some (fill_test_data 240 0xDEADBEEF)) 4096 600).map
      fun flit => flit.header.length) = some 4096 := by
  decide

/-- C3, amended: a size above 240 is not rejected.  With a source that is null
or holds at least 240 bytes, each of the seven payload-carrying factories
returns a flit whose header length is the size as given and whose 240 payload
bytes are the first 240 bytes of the source. -/
theorem oversize_payload_is_clamped (protocol_id : uint8_t) (opcode : CXLMemOpcode)
    (address : uint64_t) (source : Option (List uint8_t)) (size tag : uint16_t)
    (cache_id flags : uint8_t) (hsize : 240 < size.val)
    (hsource : ∀ src, source = some src → 240 ≤ src.length) :
    carries (create_mem_write address source size tag) size source 240 ∧
    carries (create_mem_data_response address source size tag) size source 240 ∧
    carries (create_mem_read_data address source size tag) size source 240 ∧
    carries ( create_mem_write_partial address source size tag) size source 240 ∧
    carries (create_completion_with_data source size tag) size source 240 ∧
    carries (create_snoop_data address source size tag) size source 240 ∧
    carries (create_custom protocol_id opcode address source size tag cache_id flags)
      size source 240 := by
  have hmin : min size.val DATA_SIZE = 240 := by
    simp only [DATA_SIZE]; omega
  have hok : source_ok source size := fun src e => hmin ▸ hsource src e
  have key : ∀ header : CXLFlitHeader, carries _ header.length source 240 := fun header =>
    carries_payload_copy header source size 240 hok (Nat.le_of_eq hmin.symm)
  refine ⟨key ⟨0x2, CXLMemOpcode.MEM_WR, tag, address, size, 0, 0⟩,
    key ⟨0x2, CXLMemOpcode.MEM_DATA, tag, address, size, 0, 0⟩,
    key ⟨0x2, CXLMemOpcode.MEM_RD_DATA, tag, address, size, 0, 0⟩,
    key ⟨0x2, CXLMemOpcode.MEM_WR_PTL, tag, address, size, 0, 0⟩,
    key ⟨0x2, CXLMemOpcode.CPL_DATA, tag, 0, size, 0, 0⟩,
    key ⟨0x1, CXLMemOpcode.SNP_DATA, tag, address, size, 0, 0⟩, ?_⟩
  have hpos : size.val > 0 := by omega
  have h := key ⟨protocol_id, opcode, tag, address, size, cache_id, flags⟩
  cases source with
  | none => exact h
  | some src =>
    simp only [create_custom, if_pos hpos]
    exact h

/-- Witness of the amended C3 at the response of `test_sequential_read`: 4096
bytes asked for, a 240-byte buffer. -/
theorem oversize_payload_is_clamped_witness :
    240 < (4096 : uint16_t).val ∧
    carries (create_mem_data_response 0x100000 (some (fill_test_data 240 0x100000)) 4096 0)
      4096 (some (fill_test_data 240 0x100000)) 240 :=
  ⟨by decide,
    (oversize_payload_is_clamped 0x2 CXLMemOpcode.MEM_DATA 0x100000
      (some (fill_test_data 240 0x100000)) 4096 0 0 0 (by decide)
      (fun src e => by cases e; simp [fill_test_data])).2.1⟩

/-- The sixteen bytes of the header image, written out. -/
theorem header_raw_eq (h : CXLFlitHeader) :
    h.raw =
      [h.protocol_id, h.opcode.byte] ++ le_bytes 2 h.tag.val ++ le_bytes 8 h.address.val ++
        le_bytes 2 h.length.val ++ [h.cache_id, h.flags] := by
  have one : ∀ b : uint8_t, le_bytes 1 b.val = [b] := by
    intro b
    have hb : (⟨b.val / 256 ^ 0 % 256, Nat.mod_lt _ (by decide)⟩ : uint8_t) = b :=
      Fin.ext (by simp [Nat.mod_eq_of_lt b.isLt])
    simp only [le_bytes, List.range_succ, List.range_zero, List.nil_append, List.map_cons,
      List.map_nil, hb]
  simp only [CXLFlitHeader.raw, CXLFlitHeader.fields, List.flatMap_cons, List.flatMap_nil, one,
    List.append_nil, List.append_assoc, List.cons_append, List.nil_append]

theorem le_bytes_length (w v : Nat) : (le_bytes w v).length = w := by
  simp [le_bytes]

theorem le_bytes_getElem? (w v : Nat) (k : Fin w) :
    ((le_bytes w v)[k.val]?).map Fin.val = some (v / 256 ^ k.val % 256) := by
  simp [le_bytes, List.getElem?_map, List.getElem?_range k.isLt]

theorem header_raw_length (h : CXLFlitHeader) : h.raw.length = 16 := by
  simp [header_raw_eq, le_bytes_length]

theorem raw_getElem?_header (flit : CXLFlit) (j : Nat) (hj : j < 16) :
    flit.raw[j]? = flit.header.raw[j]? := by
  simp only [CXLFlit.raw]
  exact List.getElem?_append_left (by rw [header_raw_length]; exact hj)

theorem raw_getElem?_data (flit : CXLFlit) (i : Fin DATA_SIZE) :
    flit.raw[16 + i.val]? = some (flit.data i) := by
  simp only [CXLFlit.raw]
  rw [List.getElem?_append_right (by rw [header_raw_length]; omega), header_raw_length,
    Nat.add_sub_cancel_left, List.getElem?_ofFn, List.ofFnNthVal, dif_pos i.isLt]

/-- C4: bit-exact layout of the 256-byte image of every flit: byte 0 is the
protocol id, byte 1 the opcode, bytes 2-3 the tag, bytes 4-11 the address,
bytes 12-13 the length (byte `k` of a multi-byte field holds bits `8k .. 8k+7`,
least-significant byte first), byte 14 the cache id, byte 15 the flags, and
payload byte `i` sits at offset `16 + i` for every `i < 240`. -/
theorem raw_layout (flit : CXLFlit) :
    flit.raw.length = 256 ∧
    flit.raw[0]? = some flit.header.protocol_id ∧
    flit.raw[1]? = some flit.header.opcode.byte ∧
    (∀ k : Fin 2,
      (flit.raw[2 + k.val]?).map Fin.val = some (flit.header.tag.val / 256 ^ k.val % 256)) ∧
    (∀ k : Fin 8,
      (flit.raw[4 + k.val]?).map Fin.val = some (flit.header.address.val / 256 ^ k.val % 256)) ∧
    (∀ k : Fin 2,
      (flit.raw[12 + k.val]?).map Fin.val = some (flit.header.length.val / 256 ^ k.val % 256)) ∧
    flit.raw[14]? = some flit.header.cache_id ∧
    flit.raw[15]? = some flit.header.flags ∧
    ∀ i : Fin DATA_SIZE, flit.raw[16 + i.val]? = some (flit.data i) := by
  refine ⟨?_, ?_, ?_, ?_, ?_, ?_, ?_, ?_, raw_getElem?_data flit⟩
  · simp only [CXLFlit.raw, List.length_append, header_raw_length, List.length_ofFn, DATA_SIZE]
  · rw [raw_getElem?_header flit 0 (by decide), header_raw_eq]
    rfl
  · rw [raw_getElem?_header flit 1 (by decide), header_raw_eq]
    rfl
  · intro k
    rw [raw_getElem?_header flit _ (by omega), header_raw_eq]
    fin_cases k <;> rfl
  · intro k
    rw [raw_getElem?_header flit _ (by omega), header_raw_eq]
    fin_cases k <;> rfl
  · intro k
    rw [raw_getElem?_header flit _ (by omega), header_raw_eq]
    fin_cases k <;> rfl
  · rw [raw_getElem?_header flit 14 (by decide), header_raw_eq]
    rfl
  · rw [raw_getElem?_header flit 15 (by decide), header_raw_eq]
    rfl

/-- C5: every flit is exactly 256 bytes: the header members are 1, 1, 2, 8, 2,
1 and 1 bytes wide, 16 bytes in all, the payload capacity `DATA_SIZE` is 240,
and `FLIT_SIZE = HEADER_SIZE + DATA_SIZE = 256`; the header image has
`HEADER_SIZE` bytes and the flit image `FLIT_SIZE` bytes. -/
theorem flit_is_256_bytes :
    (∀ h : CXLFlitHeader, h.fields.map Prod.fst = [1, 1, 2, 8, 2, 1, 1]) ∧
    (∀ h : CXLFlitHeader, (h.fields.map Prod.fst).sum = 16) ∧
    1 + 1 + 2 + 8 + 2 + 1 + 1 = HEADER_SIZE ∧
    DATA_SIZE = 240 ∧
    FLIT_SIZE = HEADER_SIZE + DATA_SIZE ∧
    FLIT_SIZE = 256 ∧
    (∀ h : CXLFlitHeader, h.raw.length = HEADER_SIZE) ∧
    ∀ flit : CXLFlit, flit.raw.length = FLIT_SIZE := by
  refine ⟨fun _ => rfl, fun _ => rfl, rfl, rfl, rfl, rfl, header_raw_length, fun flit => ?_⟩
  simp only [CXLFlit.raw, List.length_append, header_raw_length, List.length_ofFn, DATA_SIZE,
    FLIT_SIZE]

/-- C6: the opcode encoding is MEM_RD=0x00, MEM_RD_DATA=0x01, MEM_WR=0x10,
MEM_WR_PTL=0x11, MEM_DATA=0x20, MEM_DATA_NXM=0x21, CPL=0x30, CPL_DATA=0x31,
SNP_DATA=0x40, SNP_INV=0x41 (and RESERVED=0xFF); the eleven bytes are pairwise
distinct, and an opcode is determined by its byte. -/
theorem opcode_encoding :
    CXLMemOpcode.MEM_RD.byte = 0x00 ∧
    CXLMemOpcode.MEM_RD_DATA.byte = 0x01 ∧
    CXLMemOpcode.MEM_WR.byte = 0x10 ∧
    CXLMemOpcode.MEM_WR_PTL.byte = 0x11 ∧
    CXLMemOpcode.MEM_DATA.byte = 0x20 ∧
    CXLMemOpcode.MEM_DATA_NXM.byte = 0x21 ∧
    CXLMemOpcode.CPL.byte = 0x30 ∧
    CXLMemOpcode.CPL_DATA.byte = 0x31 ∧
    CXLMemOpcode.SNP_DATA.byte = 0x40 ∧
    CXLMemOpcode.SNP_INV.byte = 0x41 ∧
    CXLMemOpcode.RESERVED.byte = 0xFF ∧
    ([CXLMemOpcode.MEM_RD, CXLMemOpcode.MEM_RD_DATA, CXLMemOpcode.MEM_WR,
      CXLMemOpcode.MEM_WR_PTL, CXLMemOpcode.MEM_DATA, CXLMemOpcode.MEM_DATA_NXM,
      CXLMemOpcode.CPL, CXLMemOpcode.CPL_DATA, CXLMemOpcode.SNP_DATA, CXLMemOpcode.SNP_INV,
      CXLMemOpcode.RESERVED].map CXLMemOpcode.byte).Nodup ∧
    ∀ a b : CXLMemOpcode, a.byte = b.byte → a = b := by
  refine ⟨rfl, rfl, rfl, rfl, rfl, rfl, rfl, rfl, rfl, rfl, rfl, by decide, ?_⟩
  rintro ⟨a⟩ ⟨b⟩ h
  exact congrArg CXLMemOpcode.mk h

/-- C7: the ten named factories cover the ten wire opcodes one-to-one, and each
copies the address, size and tag arguments it takes unchanged into
`header.address`, `header.length` and `header.tag`.  The four factories without
a payload always return; the six with a payload return whenever the source is
null or holds the bytes to copy. -/
theorem named_factories_cover_opcodes (address : uint64_t) (source : Option (List uint8_t))
    (size tag : uint16_t) :
    ((create_mem_read address size tag).header.opcode = CXLMemOpcode.MEM_RD ∧
      (create_mem_read address size tag).header.address = address ∧
      (create_mem_read address size tag).header.length = size ∧
      (create_mem_read address size tag).header.tag = tag) ∧
    ((create_mem_data_nxm address tag).header.opcode = CXLMemOpcode.MEM_DATA_NXM ∧
      (create_mem_data_nxm address tag).header.address = address ∧
      (create_mem_data_nxm address tag).header.tag = tag) ∧
    ((create_completion tag).header.opcode = CXLMemOpcode.CPL ∧
      (create_completion tag).header.tag = tag) ∧
    ((create_snoop_invalidate address tag).header.opcode = CXLMemOpcode.SNP_INV ∧
      (create_snoop_invalidate address tag).header.address = address ∧
      (create_snoop_invalidate address tag).header.tag = tag) ∧
    (source_ok source size →
      (∃ flit, create_mem_read_data address source size tag = some flit ∧
        flit.header.opcode = CXLMemOpcode.MEM_RD_DATA ∧ flit.header.address = address ∧
        flit.header.length = size ∧ flit.header.tag = tag) ∧
      (∃ flit, create_mem_write address source size tag = some flit ∧
        flit.header.opcode = CXLMemOpcode.MEM_WR ∧ flit.header.address = address ∧
        flit.header.length = size ∧ flit.header.tag = tag) ∧
      (∃ flit, create_mem_write_partial address source size tag = some flit ∧
        flit.header.opcode = CXLMemOpcode.MEM_WR_PTL ∧ flit.header.address = address ∧
        flit.header.length = size ∧ flit.header.tag = tag) ∧
      (∃ flit, create_mem_data_response address source size tag = some flit ∧
        flit.header.opcode = CXLMemOpcode.MEM_DATA ∧ flit.header.address = address ∧
        flit.header.length = size ∧ flit.header.tag = tag) ∧
      (∃ flit, create_completion_with_data source size tag = some flit ∧
        flit.header.opcode = CXLMemOpcode.CPL_DATA ∧
        flit.header.length = size ∧ flit.header.tag = tag) ∧
      (∃ flit, create_snoop_data address source size tag = some flit ∧
        flit.header.opcode = CXLMemOpcode.SNP_DATA ∧ flit.header.address = address ∧
        flit.header.length = size ∧ flit.header.tag = tag)) ∧
    [CXLMemOpcode.MEM_RD, CXLMemOpcode.MEM_RD_DATA, CXLMemOpcode.MEM_WR,
      CXLMemOpcode.MEM_WR_PTL, CXLMemOpcode.MEM_DATA, CXLMemOpcode.MEM_DATA_NXM,
      CXLMemOpcode.CPL, CXLMemOpcode.CPL_DATA, CXLMemOpcode.SNP_DATA,
      CXLMemOpcode.SNP_INV].Nodup := by
  refine ⟨⟨rfl, rfl, rfl, rfl⟩, ⟨rfl, rfl, rfl⟩, ⟨rfl, rfl⟩, ⟨rfl, rfl, rfl⟩, fun hok => ?_,
    by decide⟩
  have key : ∀ header : CXLFlitHeader, ∃ d, _ = some (CXLFlit.mk header d) := fun header =>
    (payload_copy ⟨header, fun _ => 0⟩ source size hok).imp fun _ h => h.1
  obtain ⟨d1, h1⟩ := key ⟨0x2, CXLMemOpcode.MEM_RD_DATA, tag, address, size, 0, 0⟩
  obtain ⟨d2, h2⟩ := key ⟨0x2, CXLMemOpcode.MEM_WR, tag, address, size, 0, 0⟩
  obtain ⟨d3, h3⟩ := key ⟨0x2, CXLMemOpcode.MEM_WR_PTL, tag, address, size, 0, 0⟩
  obtain ⟨d4, h4⟩ := key ⟨0x2, CXLMemOpcode.MEM_DATA, tag, address, size, 0, 0⟩
  obtain ⟨d5, h5⟩ := key ⟨0x2, CXLMemOpcode.CPL_DATA, tag, 0, size, 0, 0⟩
  obtain ⟨d6, h6⟩ := key ⟨0x1, CXLMemOpcode.SNP_DATA, tag, address, size, 0, 0⟩
  exact ⟨⟨_, h1, rfl, rfl, rfl, rfl⟩, ⟨_, h2, rfl, rfl, rfl, rfl⟩, ⟨_, h3, rfl, rfl, rfl, rfl⟩,
    ⟨_, h4, rfl, rfl, rfl, rfl⟩, ⟨_, h5, rfl, rfl, rfl⟩, ⟨_, h6, rfl, rfl, rfl, rfl⟩⟩

/-- Witness of C7 at a snoop-data call with a four-byte source. -/
theorem named_factories_cover_opcodes_witness :
    source_ok (some [0x11, 0x22, 0x33, 0x44]) 4 ∧
    ∃ flit, create_snoop_data 0x7000000 (some [0x11, 0x22, 0x33, 0x44]) 4 0x108 = some flit ∧
      flit.header.opcode = CXLMemOpcode.SNP_DATA ∧ flit.header.address = 0x7000000 ∧
      flit.header.length = 4 ∧ flit.header.tag = 0x108 :=
  ⟨by decide,
    ((named_factories_cover_opcodes 0x7000000 (some [0x11, 0x22, 0x33, 0x44]) 4
      0x108).2.2.2.2.1 (by decide)).2.2.2.2.2⟩

/-- C8: a default-constructed header carries protocol id 0x2; every call of a
named factory whose source is null or holds the bytes to copy returns a flit
that carries protocol id 0x1 (CXL.cache) when the factory is one of the two
snoop factories and 0x2 (CXL.mem) otherwise, so its protocol id is 0x1 exactly
when its opcode byte is at least 0x40. -/
theorem protocol_tagging (c : FactoryCall) (hok : c.source_ok) :
    ({} : CXLFlitHeader).protocol_id = 0x2 ∧
    ∃ flit, c.run = some flit ∧
      flit.header.protocol_id = (if c.is_snoop then 0x1 else 0x2) ∧
      flit.get_protocol_name = (if c.is_snoop then "CXL.cache" else "CXL.mem") ∧
      (flit.header.protocol_id = 0x1 ↔ 0x40 ≤ flit.header.opcode.byte.val) := by
  refine ⟨rfl, ?_⟩
  have key : ∀ (source : Option (List uint8_t)) (size : uint16_t), source_ok source size →
      ∀ header : CXLFlitHeader, ∃ d, _ = some (CXLFlit.mk header d) :=
    fun source size h header =>
      (payload_copy ⟨header, fun _ => 0⟩ source size h).imp fun _ h => h.1
  cases c with
  | mem_read address size tag =>
    exact ⟨_, rfl, rfl, rfl,
      (by decide : (((0x2 : uint8_t) = 0x1) ↔ 0x40 ≤ CXLMemOpcode.MEM_RD.byte.val))⟩
  | mem_data_nxm address tag =>
    exact ⟨_, rfl, rfl, rfl,
      (by decide : (((0x2 : uint8_t) = 0x1) ↔ 0x40 ≤ CXLMemOpcode.MEM_DATA_NXM.byte.val))⟩
  | completion tag =>
    exact ⟨_, rfl, rfl, rfl,
      (by decide : (((0x2 : uint8_t) = 0x1) ↔ 0x40 ≤ CXLMemOpcode.CPL.byte.val))⟩
  | snoop_invalidate address tag =>
    exact ⟨_, rfl, rfl, rfl,
      (by decide : (((0x1 : uint8_t) = 0x1) ↔ 0x40 ≤ CXLMemOpcode.SNP_INV.byte.val))⟩
  | mem_read_data address source size tag =>
    obtain ⟨d, h⟩ := key source size hok ⟨0x2, CXLMemOpcode.MEM_RD_DATA, tag, address, size, 0, 0⟩
    exact ⟨_, h, rfl, rfl,
      (by decide : (((0x2 : uint8_t) = 0x1) ↔ 0x40 ≤ CXLMemOpcode.MEM_RD_DATA.byte.val))⟩
  | mem_write address source size tag =>
    obtain ⟨d, h⟩ := key source size hok ⟨0x2, CXLMemOpcode.MEM_WR, tag, address, size, 0, 0⟩
    exact ⟨_, h, rfl, rfl,
      (by decide : (((0x2 : uint8_t) = 0x1) ↔ 0x40 ≤ CXLMemOpcode.MEM_WR.byte.val))⟩
  | mem_write_ptl address source size tag =>
    obtain ⟨d, h⟩ := key source size hok ⟨0x2, CXLMemOpcode.MEM_WR_PTL, tag, address, size, 0, 0⟩
    exact ⟨_, h, rfl, rfl,
      (by decide : (((0x2 : uint8_t) = 0x1) ↔ 0x40 ≤ CXLMemOpcode.MEM_WR_PTL.byte.val))⟩
  | mem_data_response address source size tag =>
    obtain ⟨d, h⟩ := key source size hok ⟨0x2, CXLMemOpcode.MEM_DATA, tag, address, size, 0, 0⟩
    exact ⟨_, h, rfl, rfl,
      (by decide : (((0x2 : uint8_t) = 0x1) ↔ 0x40 ≤ CXLMemOpcode.MEM_DATA.byte.val))⟩
  | completion_with_data source size tag =>
    obtain ⟨d, h⟩ := key source size hok ⟨0x2, CXLMemOpcode.CPL_DATA, tag, 0, size, 0, 0⟩
    exact ⟨_, h, rfl, rfl,
      (by decide : (((0x2 : uint8_t) = 0x1) ↔ 0x40 ≤ CXLMemOpcode.CPL_DATA.byte.val))⟩
  | snoop_data address source size tag =>
    obtain ⟨d, h⟩ := key source size hok ⟨0x1, CXLMemOpcode.SNP_DATA, tag, address, size, 0, 0⟩
    exact ⟨_, h, rfl, rfl,
      (by decide : (((0x1 : uint8_t) = 0x1) ↔ 0x40 ≤ CXLMemOpcode.SNP_DATA.byte.val))⟩

/-- Witness of C8 at the snoop-invalidate call of the flit generator. -/
theorem protocol_tagging_witness :
    (FactoryCall.snoop_invalidate 0x8000000 0x109).source_ok ∧
    ({} : CXLFlitHeader).protocol_id = 0x2 ∧
    ∃ flit, (FactoryCall.snoop_invalidate 0x8000000 0x109).run = some flit ∧
      flit.header.protocol_id =
        (if (FactoryCall.snoop_invalidate 0x8000000 0x109).is_snoop then 0x1 else 0x2) ∧
      flit.get_protocol_name =
        (if (FactoryCall.snoop_invalidate 0x8000000 0x109).is_snoop then "CXL.cache"
          else "CXL.mem") ∧
      (flit.header.protocol_id = 0x1 ↔ 0x40 ≤ flit.header.opcode.byte.val) :=
  ⟨trivial, protocol_tagging (FactoryCall.snoop_invalidate 0x8000000 0x109) trivial⟩

set_option maxRecDepth 100000 in
/-- C9: `get_opcode_name` returns its mnemonic for each of the ten defined
opcodes and "RESERVED" for every other opcode byte, of which there are 246; the
ten mnemonics are pairwise distinct. -/
theorem get_opcode_name_table :
    (∀ flit : CXLFlit,
      (flit.header.opcode = CXLMemOpcode.MEM_RD → flit.get_opcode_name = "MEM_RD") ∧
      (flit.header.opcode = CXLMemOpcode.MEM_RD_DATA → flit.get_opcode_name = "MEM_RD_DATA") ∧
      (flit.header.opcode = CXLMemOpcode.MEM_WR → flit.get_opcode_name = "MEM_WR") ∧
      (flit.header.opcode = CXLMemOpcode.MEM_WR_PTL → flit.get_opcode_name = "MEM_WR_PTL") ∧
      (flit.header.opcode = CXLMemOpcode.MEM_DATA → flit.get_opcode_name = "MEM_DATA") ∧
      (flit.header.opcode = CXLMemOpcode.MEM_DATA_NXM →
        flit.get_opcode_name = "MEM_DATA_NXM") ∧
      (flit.header.opcode = CXLMemOpcode.CPL → flit.get_opcode_name = "CPL") ∧
      (flit.header.opcode = CXLMemOpcode.CPL_DATA → flit.get_opcode_name = "CPL_DATA") ∧
      (flit.header.opcode = CXLMemOpcode.SNP_DATA → flit.get_opcode_name = "SNP_DATA") ∧
      (flit.header.opcode = CXLMemOpcode.SNP_INV → flit.get_opcode_name = "SNP_INV") ∧
      (flit.header.opcode ∉ CXLMemOpcode.defined → flit.get_opcode_name = "RESERVED")) ∧
    ((List.finRange 256).filter fun b =>
      decide ((⟨b⟩ : CXLMemOpcode) ∉ CXLMemOpcode.defined)).length = 246 ∧
    ((List.finRange 256).filter fun b =>
      decide (CXLFlit.get_opcode_name { header := { opcode := ⟨b⟩ } } = "RESERVED")).length
        = 246 ∧
    (CXLMemOpcode.defined.map fun op => CXLFlit.get_opcode_name { header := { opcode := op } })
      = ["MEM_RD", "MEM_RD_DATA", "MEM_WR", "MEM_WR_PTL", "MEM_DATA", "MEM_DATA_NXM", "CPL",
          "CPL_DATA", "SNP_DATA", "SNP_INV"] ∧
    ["MEM_RD", "MEM_RD_DATA", "MEM_WR", "MEM_WR_PTL", "MEM_DATA", "MEM_DATA_NXM", "CPL",
      "CPL_DATA", "SNP_DATA", "SNP_INV"].Nodup := by
  refine ⟨fun flit => ⟨?_, ?_, ?_, ?_, ?_, ?_, ?_, ?_, ?_, ?_, ?_⟩, by decide, by decide,
    by decide, by decide⟩
  case refine_11 =>
    intro h
    have ne : ∀ op ∈ CXLMemOpcode.defined, ¬ flit.header.opcode = op :=
      fun op hop e => h (e ▸ hop)
    simp only [CXLFlit.get_opcode_name, if_neg (ne _ (by decide : CXLMemOpcode.MEM_RD ∈ _)),
      if_neg (ne _ (by decide : CXLMemOpcode.MEM_RD_DATA ∈ _)),
      if_neg (ne _ (by decide : CXLMemOpcode.MEM_WR ∈ _)),
      if_neg (ne _ (by decide : CXLMemOpcode.MEM_WR_PTL ∈ _)),
      if_neg (ne _ (by decide : CXLMemOpcode.MEM_DATA ∈ _)),
      if_neg (ne _ (by decide : CXLMemOpcode.MEM_DATA_NXM ∈ _)),
      if_neg (ne _ (by decide : CXLMemOpcode.CPL ∈ _)),
      if_neg (ne _ (by decide : CXLMemOpcode.CPL_DATA ∈ _)),
      if_neg (ne _ (by decide : CXLMemOpcode.SNP_DATA ∈ _)),
      if_neg (ne _ (by decide : CXLMemOpcode.SNP_INV ∈ _))]
  all_goals
    intro h
    simp only [CXLFlit.get_opcode_name, h]
    rfl

end CXL

namespace CXL.TrafficGenerator

/-- C10: the default configuration of the cache side is a DRAM cache of 64 MiB
(64 * 1024 * 1024 = 67108864 bytes), replacement policy CFLRU, prefetcher
BEST_OFFSET, MSHR enabled, 16-way set associativity and demand/prefetch mixing
on; the configuration the standalone example assigns is this default. -/
theorem default_cache_config :
    ({} : Config).dram_size.val = 67108864 ∧
    64 * 1024 * 1024 = 67108864 ∧
    ({} : Config).cache_policy = Config.CachePolicy.CFLRU ∧
    ({} : Config).prefetcher = Config.PrefetcherType.BEST_OFFSET ∧
    ({} : Config).has_mshr = true ∧
    ({} : Config).set_associativity.val = 16 ∧
    ({} : Config).mix_mode = true ∧
    standalone_example_config = {} := by
  refine ⟨by decide, by decide, rfl, rfl, rfl, by decide, rfl, rfl⟩

/-- C11: the default flash geometry is 8 channels, 8 chips per channel, 1 die
per chip, 4 planes per die, 512 blocks per plane, 512 pages per block and a page
size of 16 KiB (16384 bytes). -/
theorem default_flash_geometry :
    ({} : Config).num_channels.val = 8 ∧
    ({} : Config).chips_per_channel.val = 8 ∧
    ({} : Config).dies_per_chip.val = 1 ∧
    ({} : Config).planes_per_die.val = 4 ∧
    ({} : Config).blocks_per_plane.val = 512 ∧
    ({} : Config).pages_per_block.val = 512 ∧
    ({} : Config).page_size_bytes.val = 16384 ∧
    ({} : Config).page_size_bytes.val = 16 * 1024 := by
  decide

/-- C12: the default timing and FTL configuration is technology class SLC with
page read 3 us = 3000 ns, page program 100 us = 100000 ns and block erase
1 ms = 1000000 ns, over-provisioning ratio 0.127 (12.7%), GC trigger threshold
0.01 (1%), GC policy GREEDY, and DRAM tRCD, tCL and tRP of 13 ns each. -/
theorem default_timing_and_ftl :
    ({} : Config).flash_tech = Config.FlashTechnology.SLC ∧
    ({} : Config).page_read_latency_ns.val = 3000 ∧
    ({} : Config).page_read_latency_ns.val = 3 * 1000 ∧
    ({} : Config).page_program_latency_ns.val = 100000 ∧
    ({} : Config).page_program_latency_ns.val = 100 * 1000 ∧
    ({} : Config).block_erase_latency_ns.val = 1000000 ∧
    ({} : Config).block_erase_latency_ns.val = 1 * 1000 * 1000 ∧
    ({} : Config).overprovisioning_ratio = 0.127 ∧
    ({} : Config).overprovisioning_ratio = 127 / 1000 ∧
    ({} : Config).gc_threshold = 0.01 ∧
    ({} : Config).gc_threshold = 1 / 100 ∧
    ({} : Config).gc_policy = Config.GCPolicy.GREEDY ∧
    ({} : Config).dram_tRCD_ns.val = 13 ∧
    ({} : Config).dram_tCL_ns.val = 13 ∧
    ({} : Config).dram_tRP_ns.val = 13 := by
  refine ⟨rfl, by decide, by decide, by decide, by decide, by decide, by decide, rfl, ?_, rfl,
    ?_, rfl, by decide, by decide, by decide⟩
  · show ((0.127 : ℚ) = 127 / 1000)
    norm_num
  · show ((0.01 : ℚ) = 1 / 100)
    norm_num

/-- C13: the configuration selects among exactly seven replacement policies
(RANDOM, FIFO, LRU, LRU2, LFU, LRFU, CFLRU), five prefetchers (NONE, TAGGED,
BEST_OFFSET, LEAP, FEEDBACK) and four GC policies (GREEDY, RGA, RANDOM, FIFO):
every value of each enumeration is one of the listed names, and the listed
names are pairwise distinct. -/
theorem policy_sets :
    (∀ p : Config.CachePolicy,
      p ∈ [Config.CachePolicy.RANDOM, Config.CachePolicy.FIFO, Config.CachePolicy.LRU,
        Config.CachePolicy.LRU2, Config.CachePolicy.LFU, Config.CachePolicy.LRFU,
        Config.CachePolicy.CFLRU]) ∧
    [Config.CachePolicy.RANDOM, Config.CachePolicy.FIFO, Config.CachePolicy.LRU,
      Config.CachePolicy.LRU2, Config.CachePolicy.LFU, Config.CachePolicy.LRFU,
      Config.CachePolicy.CFLRU].Nodup ∧
    (∀ p : Config.PrefetcherType,
      p ∈ [Config.PrefetcherType.NONE, Config.PrefetcherType.TAGGED,
        Config.PrefetcherType.BEST_OFFSET, Config.PrefetcherType.LEAP,
        Config.PrefetcherType.FEEDBACK]) ∧
    [Config.PrefetcherType.NONE, Config.PrefetcherType.TAGGED,
      Config.PrefetcherType.BEST_OFFSET, Config.PrefetcherType.LEAP,
      Config.PrefetcherType.FEEDBACK].Nodup ∧
    (∀ p : Config.GCPolicy,
      p ∈ [Config.GCPolicy.GREEDY, Config.GCPolicy.RGA, Config.GCPolicy.RANDOM,
        Config.GCPolicy.FIFO]) ∧
    [Config.GCPolicy.GREEDY, Config.GCPolicy.RGA, Config.GCPolicy.RANDOM,
      Config.GCPolicy.FIFO].Nodup ∧
    (∀ (c : Config) (p : Config.CachePolicy) (q : Config.PrefetcherType) (r : Config.GCPolicy),
      ({ c with cache_policy := p, prefetcher := q, gc_policy := r } : Config).cache_policy = p ∧
      ({ c with cache_policy := p, prefetcher := q, gc_policy := r } : Config).prefetcher = q ∧
      ({ c with cache_policy := p, prefetcher := q, gc_policy := r } : Config).gc_policy = r) := by
  refine ⟨fun p => ?_, by decide, fun p => ?_, by decide, fun p => ?_, by decide,
    fun _ _ _ _ => ⟨rfl, rfl, rfl⟩⟩
  · cases p <;> decide
  · cases p <;> decide
  · cases p <;> decide

theorem advance_to_time_le {Cache Flash : Type} (g : Impl Cache Flash) (time : uint64_t) :
    g.current_time_ns ≤ (g.advance_to time).current_time_ns :=
  le_max_left _ _

theorem run_until_loop_reset {Cache Flash : Type} (target_time_ns : uint64_t) :
    ∀ (fuel : Nat) (g : Impl Cache Flash),
      Impl.run_until_loop fuel g.reset_statistics target_time_ns =
        (Impl.run_until_loop fuel g target_time_ns).reset_statistics := by
  intro fuel
  induction fuel with
  | zero => exact fun g => rfl
  | succ fuel ih =>
    intro g
    have hnext : g.reset_statistics.next_event_time = g.next_event_time := rfl
    simp only [Impl.run_until_loop, hnext]
    split
    · split
      · exact ih (g.advance_to _)
      · rfl
    · rfl

theorem run_until_complete_loop_reset {Cache Flash : Type} (max_time_ns : uint64_t) :
    ∀ (fuel : Nat) (g : Impl Cache Flash),
      Impl.run_until_complete_loop fuel g.reset_statistics max_time_ns =
        ((Impl.run_until_complete_loop fuel g max_time_ns).1.reset_statistics,
          (Impl.run_until_complete_loop fuel g max_time_ns).2) := by
  intro fuel
  induction fuel with
  | zero => exact fun g => rfl
  | succ fuel ih =>
    intro g
    have hnext : g.reset_statistics.next_event_time = g.next_event_time := rfl
    simp only [Impl.run_until_complete_loop, hnext]
    split
    · rfl
    · split
      · rfl
      · exact ih (g.advance_to _)

/-- C15: `reset_statistics` zeroes all counters (as `get_statistics` then shows)
while leaving cache state, flash state, the pending requests, the completions
already fired and the clock untouched, and calling it twice equals calling it
once. -/
theorem reset_statistics_frame {Cache Flash : Type} (g : Impl Cache Flash) :
    (g.reset_statistics.get_statistics.total_requests = 0 ∧
      g.reset_statistics.get_statistics.cache_hits = 0 ∧
      g.reset_statistics.get_statistics.cache_misses = 0 ∧
      g.reset_statistics.get_statistics.prefetch_issued = 0 ∧
      g.reset_statistics.get_statistics.prefetch_hits = 0 ∧
      g.reset_statistics.get_statistics.prefetch_pollution = 0 ∧
      g.reset_statistics.get_statistics.flash_reads = 0 ∧
      g.reset_statistics.get_statistics.flash_writes = 0 ∧
      g.reset_statistics.get_statistics.flash_erases = 0 ∧
      g.reset_statistics.get_statistics.gc_executions = 0 ∧
      g.reset_statistics.get_statistics.total_latency_ns = 0) ∧
    (g.reset_statistics.cache = g.cache ∧
      g.reset_statistics.flash = g.flash ∧
      g.reset_statistics.events = g.events ∧
      g.reset_statistics.has_pending_requests = g.has_pending_requests ∧
      g.reset_statistics.fired = g.fired ∧
      g.reset_statistics.get_current_time_ns = g.get_current_time_ns ∧
      g.reset_statistics.get_statistics.current_time_ns = g.get_statistics.current_time_ns) ∧
    g.reset_statistics.reset_statistics = g.reset_statistics ∧
    (∀ c : Call, c.apply g.reset_statistics = (c.apply g).reset_statistics) ∧
    (∀ max_time_ns : uint64_t,
      (g.reset_statistics.run_until_complete max_time_ns).2 =
        (g.run_until_complete max_time_ns).2) := by
  refine ⟨⟨rfl, rfl, rfl, rfl, rfl, rfl, rfl, rfl, rfl, rfl, rfl⟩,
    ⟨rfl, rfl, rfl, rfl, rfl, rfl, rfl⟩, rfl, fun c => ?_, fun max_time_ns => ?_⟩
  · cases c with
    | schedule time request =>
      simp only [Call.apply, Impl.schedule]
      show (if time < g.current_time_ns then none else _ : Option (Impl Cache Flash)).getD _ = _
      split <;> rfl
    | tick time_ns => rfl
    | run_until target_time_ns => exact run_until_loop_reset target_time_ns g.events.length g
    | run_until_complete max_time_ns =>
      have h := congrArg Prod.fst (run_until_complete_loop_reset max_time_ns g.events.length g)
      exact h
    | reset_statistics => rfl
  · have h := congrArg Prod.snd (run_until_complete_loop_reset max_time_ns g.events.length g)
    exact h

theorem run_until_loop_time_le {Cache Flash : Type} (target_time_ns : uint64_t) :
    ∀ (fuel : Nat) (g : Impl Cache Flash),
      g.current_time_ns ≤ (Impl.run_until_loop fuel g target_time_ns).current_time_ns := by
  intro fuel
  induction fuel with
  | zero => exact fun g => advance_to_time_le g target_time_ns
  | succ fuel ih =>
    intro g
    simp only [Impl.run_until_loop]
    split
    · split
      · exact le_trans (advance_to_time_le g _) (ih _)
      · exact advance_to_time_le g target_time_ns
    · exact advance_to_time_le g target_time_ns

theorem run_until_complete_loop_time_le {Cache Flash : Type} (max_time_ns : uint64_t) :
    ∀ (fuel : Nat) (g : Impl Cache Flash),
      g.current_time_ns ≤
        (Impl.run_until_complete_loop fuel g max_time_ns).1.current_time_ns := by
  intro fuel
  induction fuel with
  | zero => exact fun g => le_refl _
  | succ fuel ih =>
    intro g
    simp only [Impl.run_until_complete_loop]
    split
    · exact le_refl _
    · split
      · exact advance_to_time_le g max_time_ns
      · exact le_trans (advance_to_time_le g _) (ih _)

theorem schedule_eq_none_iff {Cache Flash : Type} (g : Impl Cache Flash)
    (time request : uint64_t) :
    g.schedule time request = none ↔ time < g.current_time_ns := by
  unfold Impl.schedule
  split <;> simp_all

theorem schedule_time_eq {Cache Flash : Type} (g g' : Impl Cache Flash)
    (time request : uint64_t) (h : g.schedule time request = some g') :
    g'.current_time_ns = g.current_time_ns ∧ ⟨time, request⟩ ∈ g'.events := by
  unfold Impl.schedule at h
  split at h
  · exact Option.noConfusion h
  · cases h
    exact ⟨rfl, by simp⟩

theorem call_time_le {Cache Flash : Type} (g : Impl Cache Flash) (c : Call) :
    g.current_time_ns ≤ (c.apply g).current_time_ns := by
  cases c with
  | schedule time request =>
    simp only [Call.apply]
    cases h : g.schedule time request with
    | none => exact le_refl _
    | some g' => exact le_of_eq (schedule_time_eq g g' time request h).1.symm
  | tick time_ns => exact advance_to_time_le g time_ns
  | run_until target_time_ns => exact run_until_loop_time_le target_time_ns _ g
  | run_until_complete max_time_ns => exact run_until_complete_loop_time_le max_time_ns _ g
  | reset_statistics => exact le_refl _

theorem run_calls_time_le {Cache Flash : Type} (calls : List Call) :
    ∀ g : Impl Cache Flash, g.current_time_ns ≤ (run_calls g calls).current_time_ns := by
  induction calls with
  | nil => exact fun g => le_refl _
  | cons c cs ih => exact fun g => le_trans (call_time_le g c) (ih (c.apply g))

/-- C16: simulated time never moves backward.  No call of `schedule`, `tick`,
`run_until`, `run_until_complete` or `reset_statistics` lowers
`get_current_time_ns`, so along every sequence of such calls the time observed
later is never below the time observed earlier; and scheduling an event at a
time earlier than the current simulated time is rejected, while any other time
is accepted, queues the event and leaves the clock alone. -/
theorem simulated_time_never_moves_backward {Cache Flash : Type} (g : Impl Cache Flash) :
    (∀ c : Call, g.get_current_time_ns ≤ (c.apply g).get_current_time_ns) ∧
    (∀ earlier later : List Call,
      (run_calls g earlier).get_current_time_ns ≤
        (run_calls g (earlier ++ later)).get_current_time_ns) ∧
    (∀ time request : uint64_t,
      time < g.get_current_time_ns → g.schedule time request = none) ∧
    (∀ time request : uint64_t, g.get_current_time_ns ≤ time →
      ∃ g', g.schedule time request = some g' ∧
        g'.get_current_time_ns = g.get_current_time_ns ∧ ⟨time, request⟩ ∈ g'.events) := by
  refine ⟨call_time_le g, fun earlier later => ?_, fun time request h => ?_,
    fun time request h => ?_⟩
  · have e : run_calls g (earlier ++ later) = run_calls (run_calls g earlier) later :=
      List.foldl_append _ _ _ _
    rw [e]
    exact run_calls_time_le later _
  · exact (schedule_eq_none_iff g time request).mpr h
  · cases hs : g.schedule time request with
    | none => exact absurd ((schedule_eq_none_iff g time request).mp hs) (not_lt.mpr h)
    | some g' => exact ⟨g', rfl, schedule_time_eq g g' time request hs⟩

end CXL.TrafficGenerator

namespace CXL

/-- A payload array that agrees with the source at every index is the first
`DATA_SIZE` bytes of the source. -/
theorem ofFn_eq_take (d : Fin DATA_SIZE → uint8_t) (src : List uint8_t)
    (h : ∀ i : Fin DATA_SIZE, src[i.val]? = some (d i)) :
    List.ofFn d = src.take DATA_SIZE := by
  apply List.ext_getElem?
  intro k
  rw [List.getElem?_ofFn, List.ofFnNthVal]
  by_cases hk : k < DATA_SIZE
  · rw [dif_pos hk, List.getElem?_take_of_lt hk]
    exact (h ⟨k, hk⟩).symm
  · rw [dif_neg hk, List.getElem?_take_eq_none (Nat.le_of_not_lt hk)]

/-- The clamp-and-copy tail on a fresh flit, for an oversized request with a
source of at least `DATA_SIZE` bytes: the payload is the first `DATA_SIZE`
source bytes. -/
theorem truncates_payload_copy (header : CXLFlitHeader) (src : List uint8_t)
    (size : uint16_t) :
    DATA_SIZE < size.val → DATA_SIZE ≤ src.length →
    truncates
      ((memcpy (fun _ => 0) src (if size.val > DATA_SIZE then DATA_SIZE else size.val)).map
        fun d => ({ header := header, data := d } : CXLFlit)) header.length src := by
  intro hsize hsrc
  have hc : (if size.val > DATA_SIZE then DATA_SIZE else size.val) = DATA_SIZE := if_pos hsize
  obtain ⟨d, hd, hcopy, -⟩ := memcpy_eq_some (fun _ => 0) src DATA_SIZE hsrc (Nat.le_refl _)
  refine ⟨⟨header, d⟩, ?_, rfl, ofFn_eq_take d src fun i => hcopy i i.isLt⟩
  rw [hc, hd]
  rfl

/-- C18: oversized payloads are truncated, not rejected: for a size above 240
and a non-null source (of at least 240 bytes), each of the seven
payload-carrying factories returns a flit whose payload is exactly the first
240 source bytes, while `header.length` records the size as given, and so
exceeds the 240 bytes carried. -/
theorem oversized_payload_truncated (protocol_id : uint8_t) (opcode : CXLMemOpcode)
    (address : uint64_t) (src : List uint8_t) (size tag : uint16_t) (cache_id flags : uint8_t)
    (hsize : 240 < size.val) (hsrc : 240 ≤ src.length) :
    truncates (create_mem_write address (some src) size tag) size src ∧
    truncates (create_mem_data_response address (some src) size tag) size src ∧
    truncates (create_mem_read_data address (some src) size tag) size src ∧
    truncates ( create_mem_write_partial address (some src) size tag) size src ∧
    truncates (create_completion_with_data (some src) size tag) size src ∧
    truncates (create_snoop_data address (some src) size tag) size src ∧
    truncates (create_custom protocol_id opcode address (some src) size tag cache_id flags)
      size src ∧
    ∀ flit, create_mem_write address (some src) size tag = some flit →
      DATA_SIZE < flit.header.length.val ∧ (List.ofFn flit.data).length = DATA_SIZE := by
  have key : ∀ header : CXLFlitHeader, truncates _ header.length src := fun header =>
    truncates_payload_copy header src size hsize hsrc
  have hpos : size.val > 0 := by omega
  have hw := key ⟨0x2, CXLMemOpcode.MEM_WR, tag, address, size, 0, 0⟩
  refine ⟨hw,
    key ⟨0x2, CXLMemOpcode.MEM_DATA, tag, address, size, 0, 0⟩,
    key ⟨0x2, CXLMemOpcode.MEM_RD_DATA, tag, address, size, 0, 0⟩,
    key ⟨0x2, CXLMemOpcode.MEM_WR_PTL, tag, address, size, 0, 0⟩,
    key ⟨0x2, CXLMemOpcode.CPL_DATA, tag, 0, size, 0, 0⟩,
    key ⟨0x1, CXLMemOpcode.SNP_DATA, tag, address, size, 0, 0⟩, ?_, ?_⟩
  · have h := key ⟨protocol_id, opcode, tag, address, size, cache_id, flags⟩
    simp only [create_custom, if_pos hpos]
    exact h
  · intro flit hflit
    obtain ⟨f, hf, hlen, -⟩ := hw
    have e : f = flit := Option.some.inj ((show create_mem_write address (some src) size tag
      = some f from hf).symm.trans hflit)
    subst e
    exact ⟨by rw [hlen]; exact hsize, List.length_ofFn _⟩

/-- Witness of C18 at the second write of `test_mixed_workload`: 4096 bytes
asked for, a 240-byte buffer. -/
theorem oversized_payload_truncated_witness :
    240 < (4096 : uint16_t).val ∧
    240 ≤ (fill_test_data 240 0xDEADBEEF).length ∧
    truncates (create_mem_write 0x5010000 (some (fill_test_data 240 0xDEADBEEF)) 4096 602)
      4096 (fill_test_data 240 0xDEADBEEF) :=
  ⟨by decide, by simp [fill_test_data],
    (oversized_payload_truncated 0x2 CXLMemOpcode.MEM_WR 0x5010000
      (fill_test_data 240 0xDEADBEEF) 4096 602 0 0 (by decide) (by simp [fill_test_data])).1⟩

/-- The clamp-and-copy tail on a fresh flit leaves zero every payload byte it
does not copy. -/
theorem zero_from_payload_copy (header : CXLFlitHeader) (source : Option (List uint8_t))
    (size : uint16_t) :
    source_ok source size →
    zero_from (match source with
      | some src =>
        (memcpy (fun _ => 0) src (if size.val > DATA_SIZE then DATA_SIZE else size.val)).map
          fun d => ({ header := header, data := d } : CXLFlit)
      | none => some { header := header, data := fun _ => 0 }) (copied source size) := by
  intro hok
  obtain ⟨d, hd, -, hkeep⟩ := payload_copy ⟨header, fun _ => 0⟩ source size hok
  refine ⟨_, hd, fun i hi => hkeep i ?_⟩
  cases source with
  | none => exact Or.inl rfl
  | some src => exact Or.inr hi

/-- C19: payload bytes that were not copied are zero.  The four factories without
a payload return an all-zero payload; each payload-carrying factory, called
with a source that is null or holds the bytes to copy, returns a flit whose
payload bytes from index `n` on are zero, where `n` is 0 for a null source and
`min(size, 240)` otherwise; with a null source the flit returned has its header
fields set and an all-zero payload. -/
theorem uncopied_payload_is_zero (protocol_id : uint8_t) (opcode : CXLMemOpcode)
    (address : uint64_t) (source : Option (List uint8_t)) (size tag : uint16_t)
    (cache_id flags : uint8_t) (hok : source_ok source size) :
    ((∀ i, (create_mem_read address size tag).data i = 0) ∧
      (∀ i, (create_completion tag).data i = 0) ∧
      (∀ i, (create_mem_data_nxm address tag).data i = 0) ∧
      (∀ i, (create_snoop_invalidate address tag).data i = 0)) ∧
    (zero_from (create_mem_write address source size tag) (copied source size) ∧
      zero_from (create_mem_data_response address source size tag) (copied source size) ∧
      zero_from (create_mem_read_data address source size tag) (copied source size) ∧
      zero_from ( create_mem_write_partial address source size tag) (copied source size) ∧
      zero_from (create_completion_with_data source size tag) (copied source size) ∧
      zero_from (create_snoop_data address source size tag) (copied source size) ∧
      zero_from (create_custom protocol_id opcode address source size tag cache_id flags)
        (copied source size)) ∧
    (create_mem_write address none size tag =
        some ⟨⟨0x2, CXLMemOpcode.MEM_WR, tag, address, size, 0, 0⟩, fun _ => 0⟩ ∧
      create_mem_data_response address none size tag =
        some ⟨⟨0x2, CXLMemOpcode.MEM_DATA, tag, address, size, 0, 0⟩, fun _ => 0⟩ ∧
      create_mem_read_data address none size tag =
        some ⟨⟨0x2, CXLMemOpcode.MEM_RD_DATA, tag, address, size, 0, 0⟩, fun _ => 0⟩ ∧
      create_mem_write_partial address none size tag =
        some ⟨⟨0x2, CXLMemOpcode.MEM_WR_PTL, tag, address, size, 0, 0⟩, fun _ => 0⟩ ∧
      create_completion_with_data none size tag =
        some ⟨⟨0x2, CXLMemOpcode.CPL_DATA, tag, 0, size, 0, 0⟩, fun _ => 0⟩ ∧
      create_snoop_data address none size tag =
        some ⟨⟨0x1, CXLMemOpcode.SNP_DATA, tag, address, size, 0, 0⟩, fun _ => 0⟩ ∧
      create_custom protocol_id opcode address none size tag cache_id flags =
        some ⟨⟨protocol_id, opcode, tag, address, size, cache_id, flags⟩, fun _ => 0⟩) := by
  have key : ∀ header : CXLFlitHeader, zero_from _ (copied source size) := fun header =>
    zero_from_payload_copy header source size hok
  refine ⟨⟨fun _ => rfl, fun _ => rfl, fun _ => rfl, fun _ => rfl⟩,
    ⟨key ⟨0x2, CXLMemOpcode.MEM_WR, tag, address, size, 0, 0⟩,
      key ⟨0x2, CXLMemOpcode.MEM_DATA, tag, address, size, 0, 0⟩,
      key ⟨0x2, CXLMemOpcode.MEM_RD_DATA, tag, address, size, 0, 0⟩,
      key ⟨0x2, CXLMemOpcode.MEM_WR_PTL, tag, address, size, 0, 0⟩,
      key ⟨0x2, CXLMemOpcode.CPL_DATA, tag, 0, size, 0, 0⟩,
      key ⟨0x1, CXLMemOpcode.SNP_DATA, tag, address, size, 0, 0⟩, ?_⟩,
    ⟨rfl, rfl, rfl, rfl, rfl, rfl, rfl⟩⟩
  have h := key ⟨protocol_id, opcode, tag, address, size, cache_id, flags⟩
  cases source with
  | none => exact h
  | some src =>
    by_cases hpos : size.val > 0
    · simp only [create_custom, if_pos hpos]
      exact h
    · simp only [create_custom, if_neg hpos]
      exact ⟨_, rfl, fun _ _ => rfl⟩

/-- Witness of C19 at the partial write of the flit generator, with a 32-byte
source: the payload bytes from index 32 on are zero. -/
theorem uncopied_payload_is_zero_witness :
    source_ok (some (fill_test_data 32 0x12345678)) 32 ∧
    zero_from ( create_mem_write_partial 0x4000000 (some (fill_test_data 32 0x12345678)) 32
      0x103) 32 :=
  ⟨by decide,
    (uncopied_payload_is_zero 0x2 CXLMemOpcode.MEM_WR_PTL 0x4000000
      (some (fill_test_data 32 0x12345678)) 32 0x103 0 0 (by decide)).2.1.2.2.2.1⟩

/-- C20: header fields a named factory does not take as a parameter are zero.
Every call of a named factory (with a source that is null or holds the bytes to
copy) returns a flit with `cache_id = 0` and `flags = 0`; `address = 0` for
`create_completion` and `create_completion_with_data`; `length = 0` for
`create_completion`, `create_mem_data_nxm` and `create_snoop_invalidate`; and
`tag = 0` when the tag argument is omitted.  A freshly built read has flags
0x00 until the caller stores 0x01 in `header.flags`. -/
theorem untaken_header_fields_are_zero (c : FactoryCall) (hok : c.source_ok) :
    (∃ flit, c.run = some flit ∧ flit.header.cache_id = 0 ∧ flit.header.flags = 0) ∧
    (∀ tag : uint16_t, (create_completion tag).header.address = 0 ∧
      (create_completion tag).header.length = 0) ∧
    (∀ (source : Option (List uint8_t)) (size tag : uint16_t), source_ok source size →
      ∃ flit, create_completion_with_data source size tag = some flit ∧
        flit.header.address = 0) ∧
    (∀ (address : uint64_t) (tag : uint16_t),
      (create_mem_data_nxm address tag).header.length = 0 ∧
      (create_snoop_invalidate address tag).header.length = 0) ∧
    (∀ (address : uint64_t) (size : uint16_t),
      (create_mem_read address size).header.tag = 0 ∧
      (create_completion).header.tag = 0 ∧
      (create_mem_data_nxm address).header.tag = 0 ∧
      (create_snoop_invalidate address).header.tag = 0) ∧
    (∀ (address : uint64_t) (source : Option (List uint8_t)) (size : uint16_t),
      source_ok source size →
      (∃ flit, create_mem_read_data address source size = some flit ∧ flit.header.tag = 0) ∧
      (∃ flit, create_mem_write address source size = some flit ∧ flit.header.tag = 0) ∧
      (∃ flit, create_mem_write_partial address source size = some flit ∧
        flit.header.tag = 0) ∧
      (∃ flit, create_mem_data_response address source size = some flit ∧
        flit.header.tag = 0) ∧
      (∃ flit, create_completion_with_data source size = some flit ∧ flit.header.tag = 0) ∧
      (∃ flit, create_snoop_data address source size = some flit ∧ flit.header.tag = 0)) ∧
    (∀ (address : uint64_t) (size tag : uint16_t),
      (create_mem_read address size tag).header.flags = 0x00 ∧
      ({ create_mem_read address size tag with header.flags := 0x01 } : CXLFlit).header.flags
        = 0x01) := by
  have key : ∀ (source : Option (List uint8_t)) (size : uint16_t), source_ok source size →
      ∀ header : CXLFlitHeader, ∃ d, _ = some (CXLFlit.mk header d) :=
    fun source size h header =>
      (payload_copy ⟨header, fun _ => 0⟩ source size h).imp fun _ h => h.1
  refine ⟨?_, fun _ => ⟨rfl, rfl⟩, fun source size tag h => ?_, fun _ _ => ⟨rfl, rfl⟩,
    fun _ _ => ⟨rfl, rfl, rfl, rfl⟩, fun address source size h => ?_, fun _ _ _ => ⟨rfl, rfl⟩⟩
  · cases c with
    | mem_read address size tag => exact ⟨_, rfl, rfl, rfl⟩
    | mem_data_nxm address tag => exact ⟨_, rfl, rfl, rfl⟩
    | completion tag => exact ⟨_, rfl, rfl, rfl⟩
    | snoop_invalidate address tag => exact ⟨_, rfl, rfl, rfl⟩
    | mem_read_data address source size tag =>
      obtain ⟨d, h⟩ :=
        key source size hok ⟨0x2, CXLMemOpcode.MEM_RD_DATA, tag, address, size, 0, 0⟩
      exact ⟨_, h, rfl, rfl⟩
    | mem_write address source size tag =>
      obtain ⟨d, h⟩ := key source size hok ⟨0x2, CXLMemOpcode.MEM_WR, tag, address, size, 0, 0⟩
      exact ⟨_, h, rfl, rfl⟩
    | mem_write_ptl address source size tag =>
      obtain ⟨d, h⟩ :=
        key source size hok ⟨0x2, CXLMemOpcode.MEM_WR_PTL, tag, address, size, 0, 0⟩
      exact ⟨_, h, rfl, rfl⟩
    | mem_data_response address source size tag =>
      obtain ⟨d, h⟩ := key source size hok ⟨0x2, CXLMemOpcode.MEM_DATA, tag, address, size, 0, 0⟩
      exact ⟨_, h, rfl, rfl⟩
    | completion_with_data source size tag =>
      obtain ⟨d, h⟩ := key source size hok ⟨0x2, CXLMemOpcode.CPL_DATA, tag, 0, size, 0, 0⟩
      exact ⟨_, h, rfl, rfl⟩
    | snoop_data address source size tag =>
      obtain ⟨d, h⟩ := key source size hok ⟨0x1, CXLMemOpcode.SNP_DATA, tag, address, size, 0, 0⟩
      exact ⟨_, h, rfl, rfl⟩
  · obtain ⟨d, h⟩ := key source size h ⟨0x2, CXLMemOpcode.CPL_DATA, tag, 0, size, 0, 0⟩
    exact ⟨_, h, rfl⟩
  · obtain ⟨d1, h1⟩ := key source size h ⟨0x2, CXLMemOpcode.MEM_RD_DATA, 0, address, size, 0, 0⟩
    obtain ⟨d2, h2⟩ := key source size h ⟨0x2, CXLMemOpcode.MEM_WR, 0, address, size, 0, 0⟩
    obtain ⟨d3, h3⟩ := key source size h ⟨0x2, CXLMemOpcode.MEM_WR_PTL, 0, address, size, 0, 0⟩
    obtain ⟨d4, h4⟩ := key source size h ⟨0x2, CXLMemOpcode.MEM_DATA, 0, address, size, 0, 0⟩
    obtain ⟨d5, h5⟩ := key source size h ⟨0x2, CXLMemOpcode.CPL_DATA, 0, 0, size, 0, 0⟩
    obtain ⟨d6, h6⟩ := key source size h ⟨0x1, CXLMemOpcode.SNP_DATA, 0, address, size, 0, 0⟩
    exact ⟨⟨_, h1, rfl⟩, ⟨_, h2, rfl⟩, ⟨_, h3, rfl⟩, ⟨_, h4, rfl⟩, ⟨_, h5, rfl⟩, ⟨_, h6, rfl⟩⟩

/-- Witness of C20 at the demand read of `test_prefetch_requests`. -/
theorem untaken_header_fields_are_zero_witness :
    (FactoryCall.mem_read 0x4000000 64 400).source_ok ∧
    ∃ flit, (FactoryCall.mem_read 0x4000000 64 400).run = some flit ∧
      flit.header.cache_id = 0 ∧ flit.header.flags = 0 :=
  ⟨trivial, (untaken_header_fields_are_zero (FactoryCall.mem_read 0x4000000 64 400) trivial).1⟩

/-- The copy is in bounds exactly when the count fits both the source buffer and
the payload array. -/
theorem memcpy_isSome (dst : Fin DATA_SIZE → uint8_t) (src : List uint8_t) (n : Nat) :
    (memcpy dst src n).isSome = true ↔ n ≤ src.length ∧ n ≤ DATA_SIZE := by
  unfold memcpy
  split
  · rename_i h
    simp [h]
  · rename_i h
    simp [h]

/-- The clamped byte count of the factories. -/
theorem copy_size_eq_min (size : uint16_t) :
    (if size.val > DATA_SIZE then DATA_SIZE else size.val) = min size.val DATA_SIZE := by
  split <;> omega

/-- The clamp-and-copy tail on a fresh flit returns a flit exactly when the source
is null or holds the bytes to copy. -/
theorem payload_copy_isSome (header : CXLFlitHeader) (source : Option (List uint8_t))
    (size : uint16_t) :
    (match source with
      | some src =>
        (memcpy (fun _ => 0) src (if size.val > DATA_SIZE then DATA_SIZE else size.val)).map
          fun d => ({ header := header, data := d } : CXLFlit)
      | none => some { header := header, data := fun _ => 0 }).isSome = true ↔
    source_ok source size := by
  cases source with
  | none => simp [source_ok]
  | some src =>
    simp only [Option.isSome_map', memcpy_isSome, copy_size_eq_min, source_ok, Option.some.injEq,
      forall_eq']
    exact ⟨fun h => h.1, fun h => ⟨h, Nat.min_le_right _ _⟩⟩

/-- C21: the payload copy stays in bounds.  For every 16-bit size the byte count
of the copy is `min(size, 240)`, at most 240; a copy of that many bytes never
leaves the payload array and stays inside the source exactly when the source
holds that many bytes; it writes no payload index from `min(size, 240)` on and
reads no source index from there on; and every factory returns a flit, no
out-of-range index touched, exactly when its source is null or holds at least
`min(size, 240)` bytes. -/
theorem payload_copy_in_bounds (protocol_id : uint8_t) (opcode : CXLMemOpcode)
    (address : uint64_t) (source : Option (List uint8_t)) (size tag : uint16_t)
    (cache_id flags : uint8_t) :
    ((if size.val > DATA_SIZE then DATA_SIZE else size.val) = min size.val DATA_SIZE ∧
      min size.val DATA_SIZE ≤ 240) ∧
    (∀ (dst : Fin DATA_SIZE → uint8_t) (src : List uint8_t),
      ((memcpy dst src (min size.val DATA_SIZE)).isSome = true ↔
        min size.val DATA_SIZE ≤ src.length) ∧
      ∀ d, memcpy dst src (min size.val DATA_SIZE) = some d →
        (∀ i : Fin DATA_SIZE, min size.val DATA_SIZE ≤ i.val → d i = dst i) ∧
        (∀ i : Fin DATA_SIZE, i.val < min size.val DATA_SIZE → src[i.val]? = some (d i)) ∧
        memcpy dst (src.take (min size.val DATA_SIZE)) (min size.val DATA_SIZE) = some d) ∧
    (((create_mem_write address source size tag).isSome = true ↔ source_ok source size) ∧
      ((create_mem_data_response address source size tag).isSome = true ↔
        source_ok source size) ∧
      ((create_mem_read_data address source size tag).isSome = true ↔ source_ok source size) ∧
      (( create_mem_write_partial address source size tag).isSome = true ↔
        source_ok source size) ∧
      ((create_completion_with_data source size tag).isSome = true ↔ source_ok source size) ∧
      ((create_snoop_data address source size tag).isSome = true ↔ source_ok source size) ∧
      ((create_custom protocol_id opcode address source size tag cache_id flags).isSome = true ↔
        source_ok source size)) := by
  refine ⟨⟨copy_size_eq_min size, Nat.min_le_right _ _⟩, fun dst src => ⟨?_, fun d hd => ?_⟩,
    payload_copy_isSome _ source size, payload_copy_isSome _ source size,
    payload_copy_isSome _ source size, payload_copy_isSome _ source size,
    payload_copy_isSome _ source size, payload_copy_isSome _ source size, ?_⟩
  · rw [memcpy_isSome]
    exact ⟨fun h => h.1, fun h => ⟨h, Nat.min_le_right _ _⟩⟩
  · have hin : min size.val DATA_SIZE ≤ src.length ∧ min size.val DATA_SIZE ≤ DATA_SIZE :=
      (memcpy_isSome dst src _).mp (by rw [hd]; rfl)
    obtain ⟨d', hd', hcopy, hkeep⟩ := memcpy_eq_some dst src _ hin.1 hin.2
    have e : d' = d := Option.some.inj (hd'.symm.trans hd)
    subst e
    refine ⟨hkeep, hcopy, ?_⟩
    obtain ⟨d'', hd'', hcopy'', hkeep''⟩ := memcpy_eq_some dst
      (src.take (min size.val DATA_SIZE)) (min size.val DATA_SIZE)
      (by rw [List.length_take]; omega) hin.2
    rw [hd'']
    congr 1
    funext i
    by_cases hi : i.val < min size.val DATA_SIZE
    · have h1 := hcopy i hi
      have h2 := hcopy'' i hi
      rw [List.getElem?_take_of_lt hi, h1] at h2
      exact (Option.some.inj h2).symm
    · rw [hkeep i (Nat.le_of_not_lt hi), hkeep'' i (Nat.le_of_not_lt hi)]
  · have h := payload_copy_isSome ⟨protocol_id, opcode, tag, address, size, cache_id, flags⟩
      source size
    cases source with
    | none => exact h
    | some src =>
      by_cases hpos : size.val > 0
      · simp only [create_custom, if_pos hpos]
        exact h
      · simp only [create_custom, if_neg hpos, Option.isSome_some, true_iff]
        intro s _
        have : min size.val DATA_SIZE = 0 := by omega
        omega

/-- A copy of zero bytes changes nothing. -/
theorem memcpy_zero (dst : Fin DATA_SIZE → uint8_t) (src : List uint8_t) :
    memcpy dst src 0 = some dst := by
  obtain ⟨d, hd, -, hkeep⟩ := memcpy_eq_some dst src 0 (Nat.zero_le _) (Nat.zero_le _)
  rw [hd]
  congr 1
  funext i
  exact hkeep i (Nat.zero_le _)

/-- With cache id 0 and flags 0 the generic factory is the clamp-and-copy tail on
a fresh flit with the given header, also when the size is 0. -/
theorem create_custom_eq (protocol_id : uint8_t) (opcode : CXLMemOpcode) (address : uint64_t)
    (data : Option (List uint8_t)) (size tag : uint16_t) :
    create_custom protocol_id opcode address data size tag 0 0 =
      match data with
      | some src =>
        (memcpy (fun _ => 0) src (if size.val > DATA_SIZE then DATA_SIZE else size.val)).map
          fun d => ({ header := ⟨protocol_id, opcode, tag, address, size, 0, 0⟩, data := d } :
            CXLFlit)
      | none => some { header := ⟨protocol_id, opcode, tag, address, size, 0, 0⟩,
                       data := fun _ => 0 } := by
  cases data with
  | none => rfl
  | some src =>
    by_cases hpos : size.val > 0
    · simp only [create_custom, if_pos hpos]
    · have hz : size.val = 0 := by omega
      have hc : (if size.val > DATA_SIZE then DATA_SIZE else size.val) = 0 := by
        rw [copy_size_eq_min]; omega
      simp only [create_custom, if_neg hpos, hc, memcpy_zero, Option.map_some']

/-- C22: the generic factory agrees with every specialised one.  Called with the
protocol id and the opcode of a named factory, the arguments that factory takes,
a null source and size 0 where it takes none, and cache id 0 and flags 0,
`create_custom` returns the flit of the named factory, so the two 256-byte
images are equal byte for byte; this includes size 0 and a null source. -/
theorem create_custom_agrees_with_named (address : uint64_t) (data : Option (List uint8_t))
    (size tag : uint16_t) :
    (create_custom 0x2 CXLMemOpcode.MEM_RD address none size tag 0 0 =
        some (create_mem_read address size tag) ∧
      create_custom 0x2 CXLMemOpcode.MEM_RD_DATA address data size tag 0 0 =
        create_mem_read_data address data size tag ∧
      create_custom 0x2 CXLMemOpcode.MEM_WR address data size tag 0 0 =
        create_mem_write address data size tag ∧
      create_custom 0x2 CXLMemOpcode.MEM_WR_PTL address data size tag 0 0 =
        create_mem_write_partial address data size tag ∧
      create_custom 0x2 CXLMemOpcode.MEM_DATA address data size tag 0 0 =
        create_mem_data_response address data size tag ∧
      create_custom 0x2 CXLMemOpcode.MEM_DATA_NXM address none 0 tag 0 0 =
        some (create_mem_data_nxm address tag) ∧
      create_custom 0x2 CXLMemOpcode.CPL 0 none 0 tag 0 0 = some (create_completion tag) ∧
      create_custom 0x2 CXLMemOpcode.CPL_DATA 0 data size tag 0 0 =
        create_completion_with_data data size tag ∧
      create_custom 0x1 CXLMemOpcode.SNP_DATA address data size tag 0 0 =
        create_snoop_data address data size tag ∧
      create_custom 0x1 CXLMemOpcode.SNP_INV address none 0 tag 0 0 =
        some (create_snoop_invalidate address tag)) ∧
    ((create_custom 0x2 CXLMemOpcode.MEM_WR address data size tag 0 0).map CXLFlit.raw =
        (create_mem_write address data size tag).map CXLFlit.raw ∧
      (create_custom 0x1 CXLMemOpcode.SNP_DATA address data size tag 0 0).map CXLFlit.raw =
        (create_snoop_data address data size tag).map CXLFlit.raw ∧
      (create_custom 0x2 CXLMemOpcode.CPL 0 none 0 tag 0 0).map CXLFlit.raw =
        some (create_completion tag).raw) ∧
    (create_custom 0x2 CXLMemOpcode.MEM_WR address data 0 tag 0 0 =
        create_mem_write address data 0 tag ∧
      create_custom 0x2 CXLMemOpcode.MEM_WR address none size tag 0 0 =
        create_mem_write address none size tag) := by
  have hw := create_custom_eq 0x2 CXLMemOpcode.MEM_WR address data size tag
  have hs := create_custom_eq 0x1 CXLMemOpcode.SNP_DATA address data size tag
  refine ⟨⟨rfl, create_custom_eq _ _ _ _ _ _, hw, create_custom_eq _ _ _ _ _ _,
    create_custom_eq _ _ _ _ _ _, rfl, rfl, create_custom_eq _ _ _ _ _ _, hs, rfl⟩,
    ⟨congrArg _ hw, congrArg _ hs, rfl⟩,
    ⟨create_custom_eq 0x2 CXLMemOpcode.MEM_WR address data 0 tag, rfl⟩⟩

/-- Copies from two sources that agree on the bytes to copy are equal. -/
theorem memcpy_congr (dst : Fin DATA_SIZE → uint8_t) (src₁ src₂ : List uint8_t) (n : Nat)
    (h : src₁.take n = src₂.take n) : memcpy dst src₁ n = memcpy dst src₂ n := by
  have hlen : min n src₁.length = min n src₂.length := by
    have := congrArg List.length h
    simpa [List.length_take] using this
  by_cases h1 : n ≤ src₁.length ∧ n ≤ DATA_SIZE
  · have h2 : n ≤ src₂.length ∧ n ≤ DATA_SIZE := ⟨by omega, h1.2⟩
    obtain ⟨d₁, hd₁, hc₁, hk₁⟩ := memcpy_eq_some dst src₁ n h1.1 h1.2
    obtain ⟨d₂, hd₂, hc₂, hk₂⟩ := memcpy_eq_some dst src₂ n h2.1 h2.2
    rw [hd₁, hd₂]
    congr 1
    funext i
    by_cases hi : i.val < n
    · have e₁ := hc₁ i hi
      have e₂ := hc₂ i hi
      rw [← List.getElem?_take_of_lt hi, h, List.getElem?_take_of_lt hi, e₂] at e₁
      exact (Option.some.inj e₁).symm
    · rw [hk₁ i (Nat.le_of_not_lt hi), hk₂ i (Nat.le_of_not_lt hi)]
  · have h2 : ¬ (n ≤ src₂.length ∧ n ≤ DATA_SIZE) := fun k => h1 ⟨by omega, k.2⟩
    rw [memcpy, memcpy, dif_neg h1, dif_neg h2]

/-- C27: a flit depends only on the bytes it is asked to carry.  For two source
buffers that agree on their first `min(size, 240)` bytes, all other arguments
equal, each of the seven payload-carrying factories gives the same result, so
the two flits are identical in all 256 bytes of their images. -/
theorem flit_depends_only_on_carried_bytes (protocol_id : uint8_t) (opcode : CXLMemOpcode)
    (address : uint64_t) (src₁ src₂ : List uint8_t) (size tag : uint16_t)
    (cache_id flags : uint8_t)
    (h : src₁.take (min size.val DATA_SIZE) = src₂.take (min size.val DATA_SIZE)) :
    (create_mem_write address (some src₁) size tag =
        create_mem_write address (some src₂) size tag ∧
      create_mem_data_response address (some src₁) size tag =
        create_mem_data_response address (some src₂) size tag ∧
      create_mem_read_data address (some src₁) size tag =
        create_mem_read_data address (some src₂) size tag ∧
      create_mem_write_partial address (some src₁) size tag =
        create_mem_write_partial address (some src₂) size tag ∧
      create_completion_with_data (some src₁) size tag =
        create_completion_with_data (some src₂) size tag ∧
      create_snoop_data address (some src₁) size tag =
        create_snoop_data address (some src₂) size tag ∧
      create_custom protocol_id opcode address (some src₁) size tag cache_id flags =
        create_custom protocol_id opcode address (some src₂) size tag cache_id flags) ∧
    ((create_mem_data_response address (some src₁) size tag).map CXLFlit.raw =
        (create_mem_data_response address (some src₂) size tag).map CXLFlit.raw ∧
      ∀ flit₁ flit₂, create_mem_data_response address (some src₁) size tag = some flit₁ →
        create_mem_data_response address (some src₂) size tag = some flit₂ →
        flit₁.raw = flit₂.raw ∧ flit₁.raw.length = 256) := by
  have hm : ∀ dst : Fin DATA_SIZE → uint8_t,
      memcpy dst src₁ (if size.val > DATA_SIZE then DATA_SIZE else size.val) =
        memcpy dst src₂ (if size.val > DATA_SIZE then DATA_SIZE else size.val) := by
    intro dst
    rw [copy_size_eq_min]
    exact memcpy_congr dst src₁ src₂ _ h
  have key : ∀ header : CXLFlitHeader,
      (memcpy (fun _ => 0) src₁ (if size.val > DATA_SIZE then DATA_SIZE else size.val)).map
          (fun d => ({ header := header, data := d } : CXLFlit)) =
        (memcpy (fun _ => 0) src₂ (if size.val > DATA_SIZE then DATA_SIZE else size.val)).map
          (fun d => ({ header := header, data := d } : CXLFlit)) := by
    intro header
    rw [hm]
  have hr := key ⟨0x2, CXLMemOpcode.MEM_DATA, tag, address, size, 0, 0⟩
  refine ⟨⟨key ⟨0x2, CXLMemOpcode.MEM_WR, tag, address, size, 0, 0⟩, hr,
    key ⟨0x2, CXLMemOpcode.MEM_RD_DATA, tag, address, size, 0, 0⟩,
    key ⟨0x2, CXLMemOpcode.MEM_WR_PTL, tag, address, size, 0, 0⟩,
    key ⟨0x2, CXLMemOpcode.CPL_DATA, tag, 0, size, 0, 0⟩,
    key ⟨0x1, CXLMemOpcode.SNP_DATA, tag, address, size, 0, 0⟩, ?_⟩, ?_, ?_⟩
  · by_cases hpos : size.val > 0
    · simp only [create_custom, if_pos hpos]
      exact key ⟨protocol_id, opcode, tag, address, size, cache_id, flags⟩
    · simp only [create_custom, if_neg hpos]
  · exact congrArg (Option.map CXLFlit.raw) hr
  · intro flit₁ flit₂ h₁ h₂
    have e : flit₁ = flit₂ := Option.some.inj (h₁.symm.trans ((show
      create_mem_data_response address (some src₁) size tag =
        create_mem_data_response address (some src₂) size tag from hr).trans h₂))
    subst e
    refine ⟨rfl, ?_⟩
    simp only [CXLFlit.raw, List.length_append, header_raw_length, List.length_ofFn, DATA_SIZE]

/-- Witness of C27 at a response of `test_random_read`: 64 bytes are carried
from a 240-byte buffer whose other 176 bytes are whatever the caller's stack
held, here all 0x00 in one run and all 0xFF in another. -/
theorem flit_depends_only_on_carried_bytes_witness :
    (fill_test_data 64 0x1000040 ++ List.replicate 176 0x00).take
        (min (64 : uint16_t).val DATA_SIZE) =
      (fill_test_data 64 0x1000040 ++ List.replicate 176 0xFF).take
        (min (64 : uint16_t).val DATA_SIZE) ∧
    create_mem_data_response 0x1000040
        (some (fill_test_data 64 0x1000040 ++ List.replicate 176 0x00)) 64 100 =
      create_mem_data_response 0x1000040
        (some (fill_test_data 64 0x1000040 ++ List.replicate 176 0xFF)) 64 100 :=
  ⟨by decide,
    (flit_depends_only_on_carried_bytes 0x2 CXLMemOpcode.MEM_DATA 0x1000040
      (fill_test_data 64 0x1000040 ++ List.replicate 176 0x00)
      (fill_test_data 64 0x1000040 ++ List.replicate 176 0xFF) 64 100 0 0 (by decide)).1.2.1⟩

end CXL

namespace CXL.TrafficGenerator

end CXL.TrafficGenerator

namespace CXL.cxl_flit_generator

/-- Extra arguments and the program name do not matter to `main`. -/
theorem main_argv (program filter : String) (rest : List String) :
    main (program :: filter :: rest) = main ["", filter] := by
  have h1 : (program :: filter :: rest).length ≥ 2 := by simp
  have h2 : (["", filter] : List String).length ≥ 2 := by simp
  unfold main
  simp only [if_pos h1, if_pos h2]
  rfl

theorem main_no_argument (program : String) : main [program] = main ["", ""] := by
  have h1 : ¬ ([program] : List String).length ≥ 2 := by simp
  have h2 : (["", ""] : List String).length ≥ 2 := by simp
  unfold main
  simp only [if_neg h1, if_pos h2]
  rfl

set_option maxRecDepth 100000 in
/-- C28: flit-type selection in the generator.  With no argument, or with the
argument `all`, ten flits are generated, one per opcode, in the order mem_rd,
mem_rd_data, mem_wr, mem_wr_ptl, mem_data, mem_data_nxm, cpl, cpl_data,
snp_data, snp_inv, and the exit status is 0; with one of those ten names as
argument exactly one flit is generated, with that type's opcode, and the status
is 0; with any other non-empty argument no flit is generated and the status is
1.  An empty argument selects all ten, like no argument. -/
theorem generator_selection (program : String) (rest : List String) :
    (outcome (main [program]) = some (CXLMemOpcode.defined, 0) ∧
      outcome (main (program :: "all" :: rest)) = some (CXLMemOpcode.defined, 0) ∧
      outcome (main (program :: "" :: rest)) = some (CXLMemOpcode.defined, 0) ∧
      CXLMemOpcode.defined.length = 10) ∧
    (∀ p ∈ List.zip type_names CXLMemOpcode.defined,
      outcome (main (program :: p.1 :: rest)) = some ([p.2], 0)) ∧
    (∀ filter : String, filter ≠ "" → filter ≠ "all" → filter ∉ type_names →
      outcome (main (program :: filter :: rest)) = some ([], 1)) := by
  refine ⟨⟨?_, ?_, ?_, rfl⟩, ?_, ?_⟩
  · rw [main_no_argument]
    decide
  · rw [main_argv]
    decide
  · rw [main_argv]
    decide
  · have h : ∀ p ∈ List.zip type_names CXLMemOpcode.defined,
        outcome (main ["", p.1]) = some ([p.2], 0) := by decide
    intro p hp
    rw [main_argv]
    exact h p hp
  · intro filter h0 h1 h2
    rw [main_argv]
    simp only [type_names, List.mem_cons, List.mem_singleton, not_or, List.not_mem_nil,
      not_false_eq_true, and_true] at h2
    simp [main, outcome, h0, h1, h2]

/-- Witness of C28: an unknown type name. -/
theorem generator_selection_witness :
    ("mem_read" ≠ "" ∧ "mem_read" ≠ "all" ∧ "mem_read" ∉ type_names) ∧
    outcome (main ["cxl_flit_generator", "mem_read"]) = some ([], 1) :=
  ⟨by decide,
    (generator_selection "cxl_flit_generator" []).2.2 "mem_read" (by decide) (by decide)
      (by decide)⟩

/-- Byte `i` of the sample data. -/
theorem generate_sample_data_getElem? (size : Nat) (seed : uint64_t) (i : Nat) (hi : i < size) :
    ((generate_sample_data size seed)[i]?).map Fin.val = some ((seed.val + 13 * i) % 256) := by
  simp only [generate_sample_data, List.getElem?_map, List.getElem?_range hi, Option.map_some',
    Option.some.injEq]
  omega

/-- Two sample bytes less than 256 places apart differ: 13 is coprime to 256. -/
theorem sample_byte_injective (seed i j : Nat) (hij : i < j + 256) (hji : j < i + 256)
    (h : (seed + 13 * i) % 256 = (seed + 13 * j) % 256) : i = j := by
  omega

/-- The sample data are the bytes of the indices below `size`, in order. -/
theorem generate_sample_data_window (size : Nat) (seed : uint64_t) (k n : Nat)
    (h : k + n ≤ size) :
    ((generate_sample_data size seed).drop k).take n =
      (List.range' k n).map fun i =>
        (⟨(seed.val + i * 13 % 18446744073709551616) % 18446744073709551616 % 256,
          Nat.mod_lt _ (by decide)⟩ : uint8_t) := by
  simp only [generate_sample_data, ← List.map_drop, ← List.map_take]
  congr 1
  apply List.ext_getElem?
  intro m
  by_cases hm : m < n
  · rw [List.getElem?_take_of_lt hm, List.getElem?_drop, List.getElem?_range (by omega),
      List.getElem?_range' _ _ hm]
    simp
  · rw [List.getElem?_take_eq_none (Nat.le_of_not_lt hm), List.getElem?_eq_none]
    simp only [List.length_range']
    omega

/-- A window of at most 256 consecutive sample bytes has no repetition. -/
theorem generate_sample_data_window_nodup (size : Nat) (seed : uint64_t) (k n : Nat)
    (h : k + n ≤ size) (hn : n ≤ 256) :
    (((generate_sample_data size seed).drop k).take n).Nodup := by
  rw [generate_sample_data_window size seed k n h]
  refine List.Nodup.map_on ?_ (List.nodup_range' k n)
  intro i hi j hj e
  rw [List.mem_range'_1] at hi hj
  have e' := congrArg Fin.val e
  simp only at e'
  exact sample_byte_injective seed.val i j (by omega) (by omega) (by omega)

/-- C29: `generate_sample_data` writes `buffer[i] = (seed + 13 * i) mod 256` for
every `i < size`; any 256 consecutive bytes of it are pairwise distinct and are
a permutation of all byte values; and for every seed the 240 sample payload
bytes the generator uses are pairwise distinct. -/
theorem sample_data_bytes (size : Nat) (seed : uint64_t) :
    (generate_sample_data size seed).length = size ∧
    (∀ i : Nat, i < size →
      ((generate_sample_data size seed)[i]?).map Fin.val = some ((seed.val + 13 * i) % 256)) ∧
    (∀ k : Nat, k + 256 ≤ size →
      (((generate_sample_data size seed).drop k).take 256).Nodup ∧
      (∀ b : uint8_t, b ∈ ((generate_sample_data size seed).drop k).take 256) ∧
      (((generate_sample_data size seed).drop k).take 256).Perm (List.finRange 256)) ∧
    (generate_sample_data DATA_SIZE seed).Nodup ∧
    (generate_sample_data DATA_SIZE 0x12345678).Nodup := by
  have h240 : ∀ seed' : uint64_t, (generate_sample_data DATA_SIZE seed').Nodup := by
    intro seed'
    have h := generate_sample_data_window_nodup DATA_SIZE seed' 0 DATA_SIZE (by omega)
      (by decide)
    rw [List.drop_zero, List.take_of_length_le (by simp [generate_sample_data])] at h
    exact h
  refine ⟨by simp [generate_sample_data], generate_sample_data_getElem? size seed,
    fun k hk => ?_, h240 seed, h240 _⟩
  have hnd := generate_sample_data_window_nodup size seed k 256 hk (le_refl _)
  have hlen : (((generate_sample_data size seed).drop k).take 256).length = 256 := by
    rw [generate_sample_data_window size seed k 256 hk]
    simp
  have hall : ∀ b : uint8_t, b ∈ ((generate_sample_data size seed).drop k).take 256 := by
    intro b
    have hcard : (((generate_sample_data size seed).drop k).take 256).toFinset.card =
        Fintype.card uint8_t := by
      rw [List.toFinset_card_of_nodup hnd, hlen]
      exact (Fintype.card_fin 256).symm
    have huniv := Finset.eq_univ_of_card _ hcard
    exact List.mem_toFinset.mp (huniv ▸ Finset.mem_univ b)
  exact ⟨hnd, hall, (List.perm_ext_iff_of_nodup hnd (List.nodup_finRange 256)).mpr
    fun b => ⟨fun _ => List.mem_finRange b, fun _ => hall b⟩⟩

end CXL.cxl_flit_generator

namespace CXL.test_burst_transfer

theorem num_flits_eq (T : Nat) (hT : T + 240 ≤ 2 ^ 64) : NUM_FLITS T = (T + 239) / 240 := by
  simp only [NUM_FLITS, DATA_SIZE]
  omega

theorem address_eq (start_address : uint64_t) (T idx : Nat)
    (hs : start_address.val + T ≤ 2 ^ 64) (hidx : idx * 240 < T) :
    (address start_address idx).val = start_address.val + idx * 240 := by
  simp only [address, DATA_SIZE]
  omega

theorem size_eq (T idx : Nat) (hT : T < 2 ^ 64) (hidx : idx * 240 < T) :
    (size T idx).val = min 240 (T - idx * 240) := by
  simp only [size, remaining, DATA_SIZE]
  split <;> omega

theorem address_mod (start_address : uint64_t) (idx : Nat) :
    (address start_address idx).val = (start_address.val + idx * 240) % 2 ^ 64 := by
  simp only [address, DATA_SIZE]
  omega

/-- The sizes of the first `k` flits sum to `min(T, 240 k)`. -/
theorem sizes_sum (T : Nat) (hT : T < 2 ^ 64) :
    ∀ k : Nat, k ≤ (T + 239) / 240 →
      ((List.range k).map fun idx => (size T idx).val).sum = min T (240 * k) := by
  intro k
  induction k with
  | zero => simp
  | succ k ih =>
    intro hk
    have hlt : k * 240 < T := by omega
    rw [List.range_succ, List.map_append, List.sum_append, ih (by omega)]
    simp only [List.map_cons, List.map_nil, List.sum_cons, List.sum_nil, Nat.add_zero]
    rw [size_eq T k hT hlt]
    omega

/-- C23: burst segmentation covers the transfer exactly.  For every total size
`T >= 1` that a `size_t` holds, split into `N = ceil(T / 240)` read flits built
as in the test, flit `idx < N` has address `start + idx * 240` in the 64-bit
address space and size `min(240, T - idx * 240)`, which lies in 1..240; the
sizes sum to `T`; every byte offset below `T` lies in the range of a flit;
each flit starts where the one before it ends; and the ranges of two different
flits share no address.  When the transfer ends at or below `2^64` the
addresses are `start + idx * 240` without reduction and the ranges are in
increasing order.  `NUM_FLITS`, as the test computes it, is `N` for every
`T <= 2^64 - 240`; for the 1 MiB of the test it is 4370, and the last flit
carries 16 bytes. -/
theorem burst_segmentation (start_address : uint64_t) (T : Nat) (hT1 : 1 ≤ T)
    (hT : T < 2 ^ 64) :
    (240 * ((T + 239) / 240 - 1) < T ∧ T ≤ 240 * ((T + 239) / 240)) ∧
    (∀ idx : Nat, idx < (T + 239) / 240 →
      (flit start_address T idx).header.opcode = CXLMemOpcode.MEM_RD ∧
      (flit start_address T idx).header.address = address start_address idx ∧
      (flit start_address T idx).header.length = size T idx ∧
      (address start_address idx).val = (start_address.val + idx * 240) % 2 ^ 64 ∧
      (size T idx).val = min 240 (T - idx * 240) ∧
      1 ≤ (size T idx).val ∧ (size T idx).val ≤ 240) ∧
    ((List.range ((T + 239) / 240)).map fun idx => (size T idx).val).sum = T ∧
    (∀ offset : Nat, offset < T → ∃ idx : Nat, idx < (T + 239) / 240 ∧
      idx * 240 ≤ offset ∧ offset < idx * 240 + (size T idx).val) ∧
    (∀ idx : Nat, idx + 1 < (T + 239) / 240 →
      (address start_address (idx + 1)).val =
        ((address start_address idx).val + (size T idx).val) % 2 ^ 64) ∧
    (∀ i j : Nat, i < j → j < (T + 239) / 240 →
      ∀ p q : Nat, p < (size T i).val → q < (size T j).val →
        ((address start_address i).val + p) % 2 ^ 64 ≠
          ((address start_address j).val + q) % 2 ^ 64) ∧
    (start_address.val + T ≤ 2 ^ 64 →
      (∀ idx : Nat, idx < (T + 239) / 240 →
        (address start_address idx).val = start_address.val + idx * 240) ∧
      (∀ idx : Nat, idx + 1 < (T + 239) / 240 →
        (address start_address (idx + 1)).val =
          (address start_address idx).val + (size T idx).val) ∧
      (∀ i j : Nat, i < j → j < (T + 239) / 240 →
        (address start_address i).val + (size T i).val ≤ (address start_address j).val)) ∧
    (T + 240 ≤ 2 ^ 64 → NUM_FLITS T = (T + 239) / 240) ∧
    (NUM_FLITS (1024 * 1024) = 4370 ∧ (1024 * 1024 + 239) / 240 = 4370 ∧
      (size (1024 * 1024) 4369).val = 16 ∧
      (address 0x6000000 4369).val = 0x6000000 + 4369 * 240) := by
  have hidx : ∀ idx : Nat, idx < (T + 239) / 240 → idx * 240 < T := by
    intro idx h
    omega
  have hs := start_address.isLt
  refine ⟨⟨by omega, by omega⟩, fun idx h => ?_, ?_, fun offset ho => ?_, fun idx h => ?_,
    fun i j hij hj p q hp hq => ?_, fun hend => ⟨fun idx h => ?_, fun idx h => ?_,
      fun i j hij hj => ?_⟩, num_flits_eq T, by decide⟩
  · have h1 := size_eq T idx hT (hidx idx h)
    have h2 := hidx idx h
    exact ⟨rfl, rfl, rfl, address_mod start_address idx, h1, by omega, by omega⟩
  · rw [sizes_sum T hT _ (le_refl _)]
    omega
  · refine ⟨offset / 240, by omega, by omega, ?_⟩
    rw [size_eq T _ hT (by omega)]
    omega
  · have h0 := hidx idx (by omega)
    rw [address_mod, address_mod, size_eq T idx hT h0]
    omega
  · have h0 := hidx i (by omega)
    have h1 := hidx j hj
    rw [size_eq T i hT h0] at hp
    rw [size_eq T j hT h1] at hq
    have hstep : (i + 1) * 240 ≤ j * 240 := Nat.mul_le_mul_right 240 hij
    have e₁ : ((start_address.val + i * 240) % 2 ^ 64 + p) % 2 ^ 64 =
        (start_address.val + (i * 240 + p)) % 2 ^ 64 := by omega
    have e₂ : ((start_address.val + j * 240) % 2 ^ 64 + q) % 2 ^ 64 =
        (start_address.val + (j * 240 + q)) % 2 ^ 64 := by omega
    have hlt : i * 240 + p < j * 240 + q := by omega
    have hlt' : j * 240 + q < 2 ^ 64 := by omega
    rw [address_mod, address_mod, e₁, e₂]
    generalize i * 240 + p = x at hlt
    generalize j * 240 + q = y at hlt hlt'
    omega
  · have h0 := hidx idx h
    rw [address_mod]
    omega
  · have h0 := hidx idx (by omega)
    have h1 := hidx (idx + 1) h
    rw [address_mod, address_mod, size_eq T idx hT h0]
    omega
  · have h0 := hidx i (by omega)
    have h1 := hidx j hj
    have hstep : (i + 1) * 240 ≤ j * 240 := Nat.mul_le_mul_right 240 hij
    rw [address_mod, address_mod, size_eq T i hT h0,
      Nat.mod_eq_of_lt (by omega : start_address.val + i * 240 < 2 ^ 64),
      Nat.mod_eq_of_lt (by omega : start_address.val + j * 240 < 2 ^ 64)]
    omega

/-- Witness of C23 at the transfer of the test: 1 MiB from `0x6000000`. -/
theorem burst_segmentation_witness :
    (1 ≤ 1024 * 1024 ∧ 1024 * 1024 < 2 ^ 64) ∧
    ((List.range ((1024 * 1024 + 239) / 240)).map fun idx =>
      (size (1024 * 1024) idx).val).sum = 1024 * 1024 ∧
    NUM_FLITS (1024 * 1024) = (1024 * 1024 + 239) / 240 :=
  ⟨by decide,
    (burst_segmentation 0x6000000 (1024 * 1024) (by decide) (by decide)).2.2.1,
    (burst_segmentation 0x6000000 (1024 * 1024) (by decide) (by decide)).2.2.2.2.2.2.2.1
      (by decide)⟩

end CXL.test_burst_transfer

namespace CXL

set_option maxRecDepth 100000 in
/-- What `std::hex`, `std::setw` and `std::setfill` print for a byte and for an
index below 256, and what is read back from a token. -/
theorem hex_formats :
    (∀ b : uint8_t, setw_setfill 2 '0' (hex b.val) ++ " ".data = hex_token b) ∧
    (∀ i : Fin 256, setw_setfill 4 '0' (hex i.val) = hex4 i.val) ∧
    (∀ b : uint8_t, token_byte (hex_token b) = b) ∧
    (∀ b : uint8_t, hex_digit (b.val / 16) ≠ '\n') := by
  decide

/-- One round of the loop, for an index below 256. -/
theorem to_hex_string_loop_cons (bytes_per_line i : Nat) (b : uint8_t) (raw : List uint8_t)
    (hi : i < 256) :
    to_hex_string_loop bytes_per_line i (b :: raw) =
      (if i % bytes_per_line = 0 then "\n  ".data ++ hex4 i ++ ": ".data else []) ++
        hex_token b ++ to_hex_string_loop bytes_per_line (i + 1) raw := by
  rw [to_hex_string_loop, hex_formats.1 b, hex_formats.2.1 ⟨i, hi⟩]

/-- The line label, character by character. -/
theorem line_label_eq (i : Nat) :
    "\n  ".data ++ hex4 i ++ ": ".data =
      ['\n', ' ', ' ', hex_digit (i / 4096 % 16), hex_digit (i / 256 % 16),
        hex_digit (i / 16 % 16), hex_digit (i % 16), ':', ' '] :=
  rfl

/-- Reading the output of the loop back gives one token per byte, in order,
whatever the line length. -/
theorem read_tokens_loop (bytes_per_line : Nat) :
    ∀ (raw : List uint8_t) (i fuel : Nat), i + raw.length ≤ 256 → 2 * raw.length ≤ fuel →
      read_tokens fuel (to_hex_string_loop bytes_per_line i raw) = raw.map hex_token := by
  intro raw
  induction raw with
  | nil =>
    intro i fuel _ _
    cases fuel <;> rfl
  | cons b raw ih =>
    intro i fuel hi hf
    simp only [List.length_cons] at hi hf
    obtain ⟨f, rfl⟩ : ∃ f, fuel = f + 2 := ⟨fuel - 2, by omega⟩
    have hne := hex_formats.2.2.2 b
    have htok : ∀ (g : Nat) (out : List Char),
        read_tokens (g + 1) (hex_token b ++ out) = hex_token b :: read_tokens g out := by
      intro g out
      show read_tokens (g + 1)
        (hex_digit (b.val / 16) :: hex_digit (b.val % 16) :: ' ' :: out) = _
      rw [read_tokens, if_neg hne]
      rfl
    rw [to_hex_string_loop_cons _ _ _ _ (by omega), List.map_cons, List.append_assoc]
    split
    · rw [line_label_eq]
      show read_tokens (f + 1 + 1) ('\n' :: _) = _
      rw [read_tokens, if_pos rfl]
      show read_tokens (f + 1) (hex_token b ++ _) = _
      rw [htok, ih (i + 1) f (by omega) (by omega)]
    · rw [List.nil_append, htok, ih (i + 1) (f + 1) (by omega) (by omega)]

/-- The loop prints nine characters per line label and three per byte. -/
theorem to_hex_string_loop_length (bytes_per_line : Nat) :
    ∀ (raw : List uint8_t) (i : Nat), i + raw.length ≤ 256 →
      (to_hex_string_loop bytes_per_line i raw).length =
        3 * raw.length +
          9 * ((List.range' i raw.length).filter fun j => j % bytes_per_line = 0).length := by
  intro raw
  induction raw with
  | nil => exact fun _ _ => rfl
  | cons b raw ih =>
    intro i hi
    simp only [List.length_cons] at hi
    have hl : ("\n  ".data ++ hex4 i ++ ": ".data).length = 9 := rfl
    have ht : (hex_token b).length = 3 := rfl
    rw [to_hex_string_loop_cons _ _ _ _ (by omega), List.length_append, List.length_append,
      ih (i + 1) (by omega), ht, List.length_cons, List.range'_succ, List.filter_cons]
    by_cases h : i % bytes_per_line = 0
    · rw [if_pos h, hl, if_pos (by simpa using h), List.length_cons]
      omega
    · rw [if_neg h, if_neg (by simpa using h), List.length_nil]
      omega

/-- Rounding the number of lines up, one line at a time. -/
theorem lines_step (len bytes_per_line : Nat) (hb : 1 ≤ bytes_per_line) (hl : 1 ≤ len) :
    (len + bytes_per_line - 1) / bytes_per_line =
      (len - bytes_per_line + bytes_per_line - 1) / bytes_per_line + 1 := by
  by_cases h : bytes_per_line ≤ len
  · have e1 : len + bytes_per_line - 1 = (len - 1) + bytes_per_line := by omega
    have e2 : len - bytes_per_line + bytes_per_line - 1 = len - 1 := by omega
    rw [e1, e2, Nat.add_div_right _ (by omega)]
  · have e1 : len + bytes_per_line - 1 = (len - 1) + bytes_per_line := by omega
    have e2 : len - bytes_per_line + bytes_per_line - 1 = bytes_per_line - 1 := by omega
    rw [e1, e2, Nat.add_div_right _ (by omega), Nat.div_eq_of_lt (by omega),
      Nat.div_eq_of_lt (by omega)]

theorem to_hex_string_loop_nil (bytes_per_line i : Nat) :
    to_hex_string_loop bytes_per_line i [] = [] := by
  rw [to_hex_string_loop]

/-- Inside a line the loop prints the tokens of the bytes, nothing else. -/
theorem to_hex_string_loop_inside (bytes_per_line : Nat) :
    ∀ (seg rest : List uint8_t) (i : Nat), i + seg.length ≤ 256 →
      (∀ j, i ≤ j → j < i + seg.length → j % bytes_per_line ≠ 0) →
      to_hex_string_loop bytes_per_line i (seg ++ rest) =
        seg.flatMap hex_token ++ to_hex_string_loop bytes_per_line (i + seg.length) rest := by
  intro seg
  induction seg with
  | nil => intro rest i _ _; rfl
  | cons b seg ih =>
    intro rest i hi hj
    simp only [List.length_cons] at hi hj
    rw [List.cons_append, to_hex_string_loop_cons _ _ _ _ (by omega),
      if_neg (hj i (le_refl _) (by omega)), List.nil_append,
      ih rest (i + 1) (by omega) (fun j h1 h2 => hj j (by omega) (by omega)),
      List.flatMap_cons, List.append_assoc, List.length_cons]
    congr 3
    omega

/-- One line of the dump: the label, then the tokens of up to `bytes_per_line`
bytes. -/
theorem to_hex_string_loop_line (bytes_per_line i : Nat) (raw : List uint8_t)
    (hb : 1 ≤ bytes_per_line) (h0 : i % bytes_per_line = 0) (hne : raw ≠ [])
    (hi : i + raw.length ≤ 256) :
    to_hex_string_loop bytes_per_line i raw =
      "\n  ".data ++ hex4 i ++ ": ".data ++ (raw.take bytes_per_line).flatMap hex_token ++
        to_hex_string_loop bytes_per_line (i + bytes_per_line) (raw.drop bytes_per_line) := by
  obtain ⟨b, raw, rfl⟩ := List.exists_cons_of_ne_nil hne
  obtain ⟨n, rfl⟩ : ∃ n, bytes_per_line = n + 1 := ⟨bytes_per_line - 1, by omega⟩
  simp only [List.length_cons] at hi
  have hin : ∀ j, i + 1 ≤ j → j < i + 1 + (raw.take n).length → j % (n + 1) ≠ 0 := by
    intro j h1 h2
    have hl : (raw.take n).length ≤ n := by
      rw [List.length_take]
      exact Nat.min_le_left _ _
    have e : j = (n + 1) * (i / (n + 1)) + (j - i) := by
      have := Nat.div_add_mod i (n + 1)
      omega
    rw [e, Nat.mul_add_mod, Nat.mod_eq_of_lt (by omega)]
    omega
  have hlen : i + 1 + (raw.take n).length ≤ 256 := by
    rw [List.length_take]
    omega
  rw [to_hex_string_loop_cons _ _ _ _ (by omega), if_pos h0, List.take_succ_cons,
    List.drop_succ_cons, List.flatMap_cons]
  conv_lhs => rw [← List.take_append_drop n raw]
  rw [to_hex_string_loop_inside _ _ _ _ hlen hin]
  simp only [List.append_assoc]
  congr 5
  by_cases h : n ≤ raw.length
  · rw [List.length_take, Nat.min_eq_left h]
    congr 1
    omega
  · rw [List.drop_eq_nil_of_le (by omega), to_hex_string_loop_nil, to_hex_string_loop_nil]

/-- The dump line by line. -/
theorem to_hex_string_loop_lines (bytes_per_line : Nat) (hb : 1 ≤ bytes_per_line) :
    ∀ (n : Nat) (raw : List uint8_t) (k : Nat),
      (raw = [] ∨ k * bytes_per_line + raw.length ≤ 256) →
      (raw.length + bytes_per_line - 1) / bytes_per_line = n →
      to_hex_string_loop bytes_per_line (k * bytes_per_line) raw =
        (List.range n).flatMap fun t =>
          "\n  ".data ++ hex4 ((k + t) * bytes_per_line) ++ ": ".data ++
            ((raw.drop (t * bytes_per_line)).take bytes_per_line).flatMap hex_token := by
  intro n
  induction n with
  | zero =>
    intro raw k _ hn
    have hl : raw.length = 0 := by
      by_contra h
      rw [lines_step raw.length bytes_per_line hb (by omega)] at hn
      exact absurd hn (Nat.succ_ne_zero _)
    rw [List.length_eq_zero.mp hl, to_hex_string_loop_nil]
    rfl
  | succ n ih =>
    intro raw k hk hn
    have hne : raw ≠ [] := by
      intro h
      rw [h, List.length_nil, Nat.zero_add, Nat.div_eq_of_lt (by omega)] at hn
      omega
    have hl : 1 ≤ raw.length := by
      cases raw with
      | nil => exact absurd rfl hne
      | cons _ _ => simp
    have hk : k * bytes_per_line + raw.length ≤ 256 := hk.resolve_left hne
    have hstep := lines_step raw.length bytes_per_line hb hl
    have hmul : (k + 1) * bytes_per_line = k * bytes_per_line + bytes_per_line :=
      Nat.succ_mul _ _
    rw [to_hex_string_loop_line _ _ _ hb (Nat.mul_mod_left _ _) hne hk, ← hmul,
      ih (raw.drop bytes_per_line) (k + 1) ?_ ?_, List.range_succ_eq_map, List.flatMap_cons,
      List.flatMap_map]
    · simp only [Nat.zero_mul, List.drop_zero, Nat.add_zero, List.append_assoc]
      congr 4
      congr 1
      funext t
      rw [List.drop_drop, Nat.succ_mul t, Nat.add_comm bytes_per_line,
        (by omega : k + 1 + t = k + t.succ)]
    · by_cases h : raw.length ≤ bytes_per_line
      · exact Or.inl (List.drop_eq_nil_of_le h)
      · right
        rw [List.length_drop]
        omega
    · rw [List.length_drop]
      rw [hstep] at hn
      exact Nat.succ.inj hn

theorem raw_length (flit : CXLFlit) : flit.raw.length = 256 := by
  simp only [CXLFlit.raw, List.length_append, header_raw_length, List.length_ofFn, DATA_SIZE]

/-- Equal little-endian images have equal digits. -/
theorem le_bytes_digit (w v₁ v₂ : Nat) (h : le_bytes w v₁ = le_bytes w v₂) (k : Nat)
    (hk : k < w) : v₁ / 256 ^ k % 256 = v₂ / 256 ^ k % 256 := by
  have h₁ := le_bytes_getElem? w v₁ ⟨k, hk⟩
  have h₂ := le_bytes_getElem? w v₂ ⟨k, hk⟩
  rw [h, h₂] at h₁
  exact (Option.some.inj h₁).symm

/-- The header is determined by its sixteen bytes. -/
theorem header_raw_injective (h₁ h₂ : CXLFlitHeader) (h : h₁.raw = h₂.raw) : h₁ = h₂ := by
  rw [header_raw_eq, header_raw_eq] at h
  obtain ⟨h, hcf⟩ := List.append_inj h (by simp only [List.length_append, le_bytes_length,
    List.length_cons, List.length_nil])
  obtain ⟨h, hlen⟩ := List.append_inj h (by simp only [List.length_append, le_bytes_length,
    List.length_cons, List.length_nil])
  obtain ⟨hpo, haddr⟩ := List.append_inj h (by simp only [List.length_append, le_bytes_length,
    List.length_cons, List.length_nil])
  obtain ⟨hpo, htag⟩ := List.append_inj hpo rfl
  obtain ⟨p₁, ⟨o₁⟩, t₁, a₁, l₁, c₁, f₁⟩ := h₁
  obtain ⟨p₂, ⟨o₂⟩, t₂, a₂, l₂, c₂, f₂⟩ := h₂
  simp only [List.cons.injEq, and_true] at hpo hcf
  have ht : t₁ = t₂ := by
    have d0 := le_bytes_digit 2 _ _ htag 0 (by decide)
    have d1 := le_bytes_digit 2 _ _ htag 1 (by decide)
    have b₁ := t₁.isLt
    have b₂ := t₂.isLt
    apply Fin.ext
    norm_num at d0 d1
    omega
  have hl : l₁ = l₂ := by
    have d0 := le_bytes_digit 2 _ _ hlen 0 (by decide)
    have d1 := le_bytes_digit 2 _ _ hlen 1 (by decide)
    have b₁ := l₁.isLt
    have b₂ := l₂.isLt
    apply Fin.ext
    norm_num at d0 d1
    omega
  have ha : a₁ = a₂ := by
    have d0 := le_bytes_digit 8 _ _ haddr 0 (by decide)
    have d1 := le_bytes_digit 8 _ _ haddr 1 (by decide)
    have d2 := le_bytes_digit 8 _ _ haddr 2 (by decide)
    have d3 := le_bytes_digit 8 _ _ haddr 3 (by decide)
    have d4 := le_bytes_digit 8 _ _ haddr 4 (by decide)
    have d5 := le_bytes_digit 8 _ _ haddr 5 (by decide)
    have d6 := le_bytes_digit 8 _ _ haddr 6 (by decide)
    have d7 := le_bytes_digit 8 _ _ haddr 7 (by decide)
    have b₁ := a₁.isLt
    have b₂ := a₂.isLt
    apply Fin.ext
    norm_num at d0 d1 d2 d3 d4 d5 d6 d7
    omega
  rw [hpo.1, hpo.2, hcf.1, hcf.2, ht, hl, ha]

/-- A flit is determined by its 256-byte image. -/
theorem raw_injective (flit₁ flit₂ : CXLFlit) (h : flit₁.raw = flit₂.raw) : flit₁ = flit₂ := by
  obtain ⟨hh, hd⟩ := List.append_inj h (by rw [header_raw_length, header_raw_length])
  obtain ⟨header₁, data₁⟩ := flit₁
  obtain ⟨header₂, data₂⟩ := flit₂
  have e₁ : header₁ = header₂ := header_raw_injective _ _ hh
  have e₂ : data₁ = data₂ := List.ofFn_injective hd
  rw [e₁, e₂]

/-- The dump for a line length of at least one byte. -/
theorem to_hex_string_eq (flit : CXLFlit) (bytes_per_line : Nat) (hb : 1 ≤ bytes_per_line) :
    flit.to_hex_string bytes_per_line =
      some (String.mk (to_hex_string_loop bytes_per_line 0 flit.raw)) := by
  rw [CXLFlit.to_hex_string, if_neg (by omega)]

/-- The tokens read back from the dump of a flit. -/
theorem byte_tokens_dump (flit : CXLFlit) (bytes_per_line : Nat) :
    byte_tokens (String.mk (to_hex_string_loop bytes_per_line 0 flit.raw)) =
      flit.raw.map hex_token := by
  have hl := to_hex_string_loop_length bytes_per_line flit.raw 0 (by rw [raw_length])
  have hr := raw_length flit
  exact read_tokens_loop bytes_per_line flit.raw 0 _ (by rw [raw_length])
    (by
      show 2 * flit.raw.length ≤ (to_hex_string_loop bytes_per_line 0 flit.raw).length
      omega)

/-- Reading a token back gives the byte it was printed from. -/
theorem parse_hex_dump_dump (flit : CXLFlit) (bytes_per_line : Nat) :
    parse_hex_dump (String.mk (to_hex_string_loop bytes_per_line 0 flit.raw)) = flit.raw := by
  rw [parse_hex_dump, byte_tokens_dump, List.map_map]
  conv_rhs => rw [← List.map_id flit.raw]
  exact List.map_congr_left fun b _ => hex_formats.2.2.1 b

set_option maxRecDepth 100000 in
/-- Both digits of a token are lowercase hexadecimal digits. -/
theorem hex_token_digits :
    ∀ b : uint8_t, hex_digit (b.val / 16) ∈ "0123456789abcdef".data ∧
      hex_digit (b.val % 16) ∈ "0123456789abcdef".data := by
  decide

/-- No digit is a line break. -/
theorem hex_digit_ne_newline (d : Nat) : hex_digit d ≠ '\n' := by
  unfold hex_digit
  by_cases h : d < 16
  · interval_cases d <;> decide
  · rw [List.getD_eq_default _ _ (by
      show 16 ≤ d
      omega)]
    decide

/-- A line holds exactly one line break, its first character. -/
theorem line_count_newline (i : Nat) (bytes : List uint8_t) :
    ("\n  ".data ++ hex4 i ++ ": ".data ++ bytes.flatMap hex_token).count '\n' = 1 := by
  have htok : (bytes.flatMap hex_token).count '\n' = 0 := by
    rw [List.count_eq_zero, List.mem_flatMap]
    rintro ⟨b, _, hb⟩
    simp only [hex_token, List.mem_cons, List.mem_singleton, List.mem_nil_iff, or_false] at hb
    rcases hb with hb | hb | hb
    · exact hex_digit_ne_newline _ hb.symm
    · exact hex_digit_ne_newline _ hb.symm
    · exact absurd hb (by decide)
  have hlab : (hex4 i).count '\n' = 0 := by
    rw [List.count_eq_zero]
    simp only [hex4, List.mem_cons, List.mem_singleton, List.mem_nil_iff, or_false]
    rintro (hb | hb | hb | hb) <;> exact hex_digit_ne_newline _ hb.symm
  rw [List.count_append, List.count_append, List.count_append, htok, hlab]
  rfl

/-- Line breaks of a sequence of lines. -/
theorem lines_count_newline (line : Nat → List Char)
    (hline : ∀ k, (line k).count '\n' = 1) :
    ∀ n : Nat, ((List.range n).flatMap line).count '\n' = n := by
  intro n
  induction n with
  | zero => rfl
  | succ n ih =>
    rw [List.range_succ, List.flatMap_append, List.count_append, ih, List.flatMap_cons,
      List.flatMap_nil, List.append_nil, hline]

/-- Every line starts inside the image. -/
theorem line_start_lt (bytes_per_line k : Nat) (hb : 1 ≤ bytes_per_line)
    (hk : k < (256 + bytes_per_line - 1) / bytes_per_line) : k * bytes_per_line < 256 := by
  have e : 256 + bytes_per_line - 1 = 255 + bytes_per_line := by omega
  rw [e, Nat.add_div_right _ (by omega)] at hk
  have h1 : k * bytes_per_line ≤ 255 / bytes_per_line * bytes_per_line :=
    Nat.mul_le_mul_right _ (by omega)
  have h2 := Nat.div_mul_le_self 255 bytes_per_line
  omega

/-- C24: the hex dump is lossless.  For every flit and every line length of at
least one byte, `to_hex_string` returns a dump whose byte tokens are the tokens
of the 256 bytes of the image in order, the 16 header bytes first and the 240
payload bytes after them; every token is two lowercase hexadecimal digits and a
space; reading the tokens back gives the image; another flit has the same dump
exactly when it is the same flit; and the tokens are the same for every line
length. -/
theorem hex_dump_lossless (flit : CXLFlit) (bytes_per_line : Nat) (hb : 1 ≤ bytes_per_line) :
    ∃ dump : String, flit.to_hex_string bytes_per_line = some dump ∧
      byte_tokens dump = (flit.header.raw ++ List.ofFn flit.data).map hex_token ∧
      (byte_tokens dump).length = 256 ∧
      (∀ token ∈ byte_tokens dump, ∃ high low : Char,
        high ∈ "0123456789abcdef".data ∧ low ∈ "0123456789abcdef".data ∧
        token = [high, low, ' ']) ∧
      parse_hex_dump dump = flit.raw ∧
      (∀ other : CXLFlit, other.to_hex_string bytes_per_line = some dump ↔ other = flit) ∧
      (∀ n : Nat, 1 ≤ n → ∃ other_dump : String, flit.to_hex_string n = some other_dump ∧
        byte_tokens other_dump = byte_tokens dump) := by
  refine ⟨_, to_hex_string_eq flit bytes_per_line hb, byte_tokens_dump flit bytes_per_line, ?_,
    ?_, parse_hex_dump_dump flit bytes_per_line, fun other => ⟨fun h => ?_, fun h => ?_⟩,
    fun n hn => ⟨_, to_hex_string_eq flit n hn, ?_⟩⟩
  · rw [byte_tokens_dump, List.length_map, raw_length]
  · intro token htoken
    rw [byte_tokens_dump, List.mem_map] at htoken
    obtain ⟨b, _, rfl⟩ := htoken
    exact ⟨_, _, (hex_token_digits b).1, (hex_token_digits b).2, rfl⟩
  · rw [to_hex_string_eq other bytes_per_line hb] at h
    have e := congrArg parse_hex_dump (Option.some.inj h)
    rw [parse_hex_dump_dump, parse_hex_dump_dump] at e
    exact raw_injective _ _ e
  · rw [h]
    exact to_hex_string_eq flit bytes_per_line hb
  · rw [byte_tokens_dump, byte_tokens_dump]

/-- Witness of C24: the dump of a read request with 32 bytes per line. -/
theorem hex_dump_lossless_witness :
    1 ≤ 32 ∧ ∃ dump : String, (create_mem_read 0x1000 64 7).to_hex_string 32 = some dump ∧
      parse_hex_dump dump = (create_mem_read 0x1000 64 7).raw ∧
      (byte_tokens dump).length = 256 := by
  obtain ⟨dump, h₁, _, h₃, _, h₅, _⟩ := hex_dump_lossless (create_mem_read 0x1000 64 7) 32
    (by decide)
  exact ⟨by decide, dump, h₁, h₅, h₃⟩

set_option maxRecDepth 100000 in
/-- C25: `to_hex_string` is defined for every line length of at least one byte.
The dump then consists of `ceil(256 / bytes_per_line)` lines and holds as many
line breaks; line `k` is a line break, two spaces, the four hexadecimal digits
of the offset `k * bytes_per_line`, a colon and a space, followed by the tokens
of the bytes from that offset on, at most `bytes_per_line` of them; every
offset is below 256 and its four digits are what the stream prints with width
four and fill `0`.  With the default of 16 bytes per line the dump has 16 lines
labelled `0000`, `0010`, ..., `00f0` and 912 characters.  The modulo in the loop
has a zero divisor for the line length zero and for no other. -/
theorem hex_dump_lines (flit : CXLFlit) (bytes_per_line : Nat) (hb : 1 ≤ bytes_per_line) :
    (∃ dump : String, flit.to_hex_string bytes_per_line = some dump ∧
      dump.data = (List.range ((256 + bytes_per_line - 1) / bytes_per_line)).flatMap (fun k =>
        "\n  ".data ++ hex4 (k * bytes_per_line) ++ ": ".data ++
          ((flit.raw.drop (k * bytes_per_line)).take bytes_per_line).flatMap hex_token) ∧
      dump.data.count '\n' = (256 + bytes_per_line - 1) / bytes_per_line) ∧
    (∀ k : Nat, k < (256 + bytes_per_line - 1) / bytes_per_line →
      k * bytes_per_line < 256 ∧
      hex4 (k * bytes_per_line) = setw_setfill 4 '0' (hex (k * bytes_per_line))) ∧
    (∃ dump : String, flit.to_hex_string = some dump ∧ dump.length = 912 ∧
      dump.data.count '\n' = 16 ∧
      (List.range 16).map (fun k => String.mk (hex4 (k * 16))) =
        ["0000", "0010", "0020", "0030", "0040", "0050", "0060", "0070",
          "0080", "0090", "00a0", "00b0", "00c0", "00d0", "00e0", "00f0"]) ∧
    (∀ n : Nat, flit.to_hex_string n = none ↔ n = 0) := by
  have hlines : ∀ n : Nat, 1 ≤ n →
      to_hex_string_loop n 0 flit.raw =
        (List.range ((256 + n - 1) / n)).flatMap (fun k =>
          "\n  ".data ++ hex4 (k * n) ++ ": ".data ++
            ((flit.raw.drop (k * n)).take n).flatMap hex_token) := by
    intro n hn
    have h := to_hex_string_loop_lines n hn _ flit.raw 0
      (Or.inr (by rw [raw_length]; omega)) rfl
    simp only [Nat.zero_mul, Nat.zero_add, raw_length] at h
    exact h
  have hcount : ∀ n : Nat, 1 ≤ n →
      (to_hex_string_loop n 0 flit.raw).count '\n' = (256 + n - 1) / n := by
    intro n hn
    rw [hlines n hn]
    exact lines_count_newline _ (fun k => line_count_newline _ _) _
  refine ⟨⟨_, to_hex_string_eq flit bytes_per_line hb, hlines bytes_per_line hb,
    hcount bytes_per_line hb⟩, fun k hk => ?_,
    ⟨_, to_hex_string_eq flit 16 (by decide), ?_, hcount 16 (by decide), by decide⟩,
    fun n => ?_⟩
  · have hlt := line_start_lt bytes_per_line k hb hk
    exact ⟨hlt, (hex_formats.2.1 ⟨_, hlt⟩).symm⟩
  · show (to_hex_string_loop 16 0 flit.raw).length = 912
    rw [to_hex_string_loop_length 16 flit.raw 0 (by rw [raw_length]), raw_length]
    decide
  · unfold CXLFlit.to_hex_string
    by_cases h : n = 0
    · simp [h]
    · simp [h]

/-- Witness of C25: the dump of a read request with 100 bytes per line has
three lines. -/
theorem hex_dump_lines_witness :
    1 ≤ 100 ∧ ∃ dump : String, (create_mem_read 0x1000 64 7).to_hex_string 100 = some dump ∧
      dump.data.count '\n' = 3 := by
  obtain ⟨⟨dump, h₁, _, h₃⟩, _⟩ := hex_dump_lines (create_mem_read 0x1000 64 7) 100 (by decide)
  exact ⟨by decide, dump, h₁, h₃⟩

end CXL
